import Mathlib

/-!
Verification of the ICBS content-pool pricing and settlement core
(`programs/veritas-curation/src/content_pool/`).

The Rust sources are embedded shallowly:

* `u64` / `u128` machine integers become `Nat`; wherever the Rust code can
  wrap (`as u64` casts, `<<` dropping high bits, `wrapping_*`), the model
  takes the value `% 2^64` / `% 2^128` explicitly.
* fallible Rust functions returning `Result<T>` become `Except Err T`.
* the 256-bit helpers `full_mul_128` / `div_256_by_128` (math.rs) are a
  standard restoring long division pair; their composition
  `mul_div_u128 a b d` errors on `d = 0` (`DivisionByZero`) and on a
  quotient not fitting 128 bits (`hi ≥ d`, `NumericalOverflow`), and
  otherwise returns `⌊a·b/d⌋`.  The model states that semantics directly.
* the Newton integer square root that appears (identically) in curve.rs,
  math.rs, trade.rs, settle_epoch.rs and deploy_market.rs is embedded as a
  fuel-indexed loop, faithful to `x = n; y = (x+1)/2; while y < x { x = y;
  y = (x + n/x)/2 }`; `isqrt_eq_sqrt` proves it computes `Nat.sqrt`.
-/

namespace Veritas

/-- Error kinds of `ContentPoolError` (errors.rs) that the embedded code paths
can raise. -/
inductive Err where
  | divisionByZero
  | numericalOverflow
  | invalidParameter
  | insufficientBalance
  | supplyOverflow
  | virtualSupplyOverflow
  | settlementCooldown
  | invalidBDScore
  | invalidTradeAmount
  | invalidStakeSkim
  | feeCalculationOverflow
  | tooSmallAfterRounding
  | slippageExceeded
  | noLiquidity
  | marketNotDeployed
  | invalidAllocation
  | belowMinimumDeposit
  deriving DecidableEq, Repr

instance {ε α : Type} [DecidableEq ε] [DecidableEq α] :
    DecidableEq (Except ε α) := fun a b =>
  match a, b with
  | .ok x, .ok y =>
    if h : x = y then isTrue (by rw [h]) else isFalse (by intro hc; cases hc; exact h rfl)
  | .error e, .error e' =>
    if h : e = e' then isTrue (by rw [h]) else isFalse (by intro hc; cases hc; exact h rfl)
  | .ok _, .error _ => isFalse (by intro hc; cases hc)
  | .error _, .ok _ => isFalse (by intro hc; cases hc)

/-- 2^64, width of `u64`. -/
def U64 : Nat := 2 ^ 64
/-- 2^128, width of `u128`. -/
def U128 : Nat := 2 ^ 128

/-- `Q96` (curve.rs): fixed-point 1.0 in X96. -/
def Q96 : Nat := 2 ^ 96
/-- `Q64` (state.rs): fixed-point 1.0 in Q64.64. -/
def Q64 : Nat := 2 ^ 64
/-- `Q32_ONE` (state.rs). -/
def Q32_ONE : Nat := 2 ^ 32
/-- `SIGMA_MIN` (state.rs). -/
def SIGMA_MIN : Nat := 2 ^ 48
/-- `SIGMA_MAX` (state.rs). -/
def SIGMA_MAX : Nat := 2 ^ 96
/-- `VIRTUAL_NORM_MIN` (state.rs). -/
def VIRTUAL_NORM_MIN : Nat := 2 ^ 16
/-- `VIRTUAL_NORM_MAX` (state.rs). -/
def VIRTUAL_NORM_MAX : Nat := 2 ^ 31
/-- `F_MIN` (state.rs): settlement factor floor, 0.01 in micro-units. -/
def F_MIN : Nat := 10000
/-- `F_MAX` (state.rs): settlement factor cap, 100.0 in micro-units. -/
def F_MAX : Nat := 100000000
/-- `S_DISPLAY_CAP` (state.rs). -/
def S_DISPLAY_CAP : Nat := 1000000000000
/-- `MIN_TRADE_SIZE` (state.rs). -/
def MIN_TRADE_SIZE : Nat := 100000
/-- `MAX_TRADE_SIZE` (state.rs). -/
def MAX_TRADE_SIZE : Nat := 1000000000000
/-- `MIN_TOKEN_TRADE_SIZE` (state.rs). -/
def MIN_TOKEN_TRADE_SIZE : Nat := 1
/-- `MIN_POOL_LIQUIDITY` (trade.rs, local const). -/
def MIN_POOL_LIQUIDITY : Nat := 1000
/-- `TOKEN_SCALE` (trade.rs) = `SUPPLY_SCALE` (curve.rs). -/
def TOKEN_SCALE : Nat := 1000000
/-- `SECONDS_PER_DAY` (state.rs). -/
def SECONDS_PER_DAY : Int := 86400
/-- `DECAY_TIER_1_BPS` (state.rs). -/
def DECAY_TIER_1_BPS : Nat := 100
/-- `DECAY_TIER_2_BPS` (state.rs). -/
def DECAY_TIER_2_BPS : Nat := 200
/-- `DECAY_TIER_3_BPS` (state.rs). -/
def DECAY_TIER_3_BPS : Nat := 300
/-- `DECAY_MIN_Q_BPS` (state.rs). -/
def DECAY_MIN_Q_BPS : Nat := 1000

/-- One Newton step `(x + n/x)/2` of the integer square root loops. -/
def nstep (n x : Nat) : Nat := (x + n / x) / 2

/-- The Newton loop `while y < x { x = y; y = (x + n/x)/2 }`, fuel-indexed.
The fuel never runs out on the loop's actual inputs (each iteration strictly
decreases `x`), so this is an exact model of the Rust loop. -/
def isqrtAux (n : Nat) : Nat → Nat → Nat
  | 0, x => x
  | fuel + 1, x =>
    let y := nstep n x
    if y < x then isqrtAux n fuel y else x

/-- `integer_sqrt` / `isqrt_u128` (curve.rs, math.rs, trade.rs,
settle_epoch.rs, deploy_market.rs — identical in all five):
`if n == 0 { 0 } else { Newton loop from x = n }`. -/
def isqrt (n : Nat) : Nat := if n = 0 then 0 else isqrtAux n n n

/-- Integer AM-GM for the Newton step: the step never goes below the true
floor square root. -/
theorem sqrt_le_nstep {n x : Nat} (hx : 0 < x) : Nat.sqrt n ≤ nstep n x := by
  by_contra hlt
  push_neg at hlt
  have h2 : x + n / x + 1 ≤ 2 * Nat.sqrt n := by
    have h := hlt
    have h' : (x + n / x) / 2 < Nat.sqrt n := h
    omega
  have hq : n < x * (n / x) + x := by
    have := Nat.div_add_mod n x
    have hm : n % x < x := Nat.mod_lt _ hx
    omega
  have hs : Nat.sqrt n * Nat.sqrt n ≤ n := Nat.sqrt_le n
  have h1 : (n : ℤ) < (x : ℤ) * ((n / x : Nat) : ℤ) + x := by exact_mod_cast hq
  have h2' : ((x : Nat) : ℤ) + ((n / x : Nat) : ℤ) + 1 ≤ 2 * (Nat.sqrt n : ℤ) := by
    exact_mod_cast h2
  have h3 : ((Nat.sqrt n : Nat) : ℤ) * (Nat.sqrt n : ℤ) ≤ (n : ℤ) := by exact_mod_cast hs
  have h4 : (0 : ℤ) < (x : ℤ) := by exact_mod_cast hx
  nlinarith [sq_nonneg ((x : ℤ) - (Nat.sqrt n : ℤ)),
    mul_nonneg (by linarith : (0 : ℤ) ≤ 2 * (Nat.sqrt n : ℤ) - x - (n / x : Nat) - 1)
      (by linarith : (0 : ℤ) ≤ (x : ℤ))]

/-- Above the true square root, the Newton step strictly decreases. -/
theorem nstep_lt_of_sqrt_lt {n x : Nat} (h : Nat.sqrt n < x) :
    nstep n x < x := by
  have hxx : n < x * x := Nat.sqrt_lt.mp h
  have hdiv : n / x < x := Nat.div_lt_of_lt_mul hxx
  show (x + n / x) / 2 < x
  omega

/-- The fueled Newton loop computes `Nat.sqrt` whenever the fuel dominates
the distance from the start value down to the root. -/
theorem isqrtAux_eq (n : Nat) (hn : 0 < n) :
    ∀ fuel x, 0 < x → Nat.sqrt n ≤ x → x ≤ fuel + Nat.sqrt n →
      isqrtAux n fuel x = Nat.sqrt n := by
  intro fuel
  induction fuel with
  | zero =>
    intro x _ h1 h2
    have hx : x = Nat.sqrt n := by omega
    simp [isqrtAux, hx]
  | succ f ih =>
    intro x hx h1 h2
    show (if nstep n x < x then isqrtAux n f (nstep n x) else x) = Nat.sqrt n
    split
    case isTrue hlt =>
      have hy1 : Nat.sqrt n ≤ nstep n x := sqrt_le_nstep hx
      have hy0 : 0 < nstep n x := by
        rcases (by omega : x = 1 ∨ 2 ≤ x) with h | h
        · subst h
          show 0 < (1 + n / 1) / 2
          rw [Nat.div_one]
          exact Nat.div_pos (by omega) (by norm_num)
        · show 0 < (x + n / x) / 2
          exact Nat.div_pos (le_trans h (Nat.le_add_right x (n / x))) (by norm_num)
      exact ih (nstep n x) hy0 hy1 (by omega)
    case isFalse hge =>
      by_contra hne
      have hxgt : Nat.sqrt n < x := by omega
      exact hge (nstep_lt_of_sqrt_lt hxgt)

/-- The embedded Newton square root is exactly `Nat.sqrt`. -/
theorem isqrt_eq_sqrt (n : Nat) : isqrt n = Nat.sqrt n := by
  unfold isqrt
  split
  case isTrue h => simp [h]
  case isFalse h =>
    have hn : 0 < n := Nat.pos_of_ne_zero h
    exact isqrtAux_eq n hn n n hn (Nat.sqrt_le_self n) (by omega)

/-- `math::mul_div_u128` (math.rs): `(a*b)/d` through `full_mul_128` (exact
256-bit limb product) and `div_256_by_128` (restoring long division).  The
long division rejects `d = 0` with `DivisionByZero` and a quotient that would
not fit `u128` (`hi ≥ d`) with `NumericalOverflow`; otherwise it returns the
exact floor quotient. -/
def mulDiv (a b d : Nat) : Except Err Nat :=
  if d = 0 then .error .divisionByZero
  else if a * b / U128 ≥ d then .error .numericalOverflow
  else .ok (a * b / d)

/-- `div_256_by_128` (math.rs) on an explicit `(hi, lo)` pair. -/
def div256By128 (hi lo d : Nat) : Except Err Nat :=
  if d = 0 then .error .divisionByZero
  else if hi ≥ d then .error .numericalOverflow
  else .ok ((hi * U128 + lo) / d)

/-- The private `mul_div_u128` at the top of curve.rs: GCD-reduced
`(a*b)/den`, used only by `calculate_buy` for `delta_norm`.  It first reduces
`b/den` by their gcd and then requires `a * (b/g)` to fit `u128`. -/
def gcdMulDiv (a b den : Nat) : Except Err Nat :=
  if den = 0 then .error .divisionByZero
  else
    let g := Nat.gcd b den
    if a * (b / g) ≥ U128 then .error .numericalOverflow
    else .ok (a * (b / g) / (den / g))

/-- `mul_shift_right_96` (math.rs), limb-exact including its carry handling:
`t2 = (a1*b1) << 32`, `t1 = (a1*b0 + a0*b1) >> 32`, `t0 = (a0*b0) >> 96`,
summed with checked adds.  The `<< 32` models the Rust shift, which drops
bits above 2^128. -/
def mulShiftRight96 (a b : Nat) : Except Err Nat :=
  let a0 := a % U64
  let a1 := a / U64
  let b0 := b % U64
  let b1 := b / U64
  let t2 := a1 * b1 * (2 ^ 32) % U128
  let cross := a1 * b0 + a0 * b1
  if cross ≥ U128 then .error .numericalOverflow
  else
    let t1 := cross / 2 ^ 32
    let t0 := a0 * b0 / 2 ^ 96
    if t2 + t1 + t0 ≥ U128 then .error .numericalOverflow
    else .ok (t2 + t1 + t0)

/-- `mul_x96` (curve.rs): same limb algorithm as `mul_shift_right_96`. -/
def mulX96 (a b : Nat) : Except Err Nat := mulShiftRight96 a b

/-- `round_to_nearest` (math.rs).  `divisor` is assumed nonzero by callers;
the final `as u64` cast truncates, modeled by `% 2^64`. -/
def roundToNearest (value divisor : Nat) : Nat :=
  let q := value / divisor
  let r := value % divisor
  let half := divisor / 2
  if r > half ∨ (r = half ∧ q % 2 = 1) then (q + 1) % U64 else q % U64

/-- `ceil_div` (math.rs): `⌈a/b⌉`, with `0` for `b = 0`.  (The Rust
`(a + b - 1)/b` cannot overflow for the σ/supply ranges the callers pass.) -/
def ceilDiv (a b : Nat) : Nat :=
  if b = 0 then 0 else (a + b - 1) / b

/-- Bit length by repeated halving, fueled; 128 units of fuel are exact for
`u128` values. -/
def bitlenAux : Nat → Nat → Nat
  | 0, _ => 0
  | fuel + 1, x => if x = 0 then 0 else bitlenAux fuel (x / 2) + 1

/-- `bitlen_u128` (math.rs): `128 - x.leading_zeros()`, the bit length of a
`u128` value. -/
def bitlen (x : Nat) : Nat := bitlenAux 128 x

/-- The virtual-supply expression repeated throughout trade.rs,
settle_epoch.rs, add_liquidity.rs and math.rs:
`if s > 0 { ceil_div(s * Q64, σ).max(1) } else { 0 }`. -/
def virtualSupply (s sigma : Nat) : Nat :=
  if s > 0 then max (ceilDiv (s * Q64) sigma) 1 else 0

/-- `u128::saturating_mul`. -/
def satMul (a b : Nat) : Nat := min (a * b) (U128 - 1)

/-- `u128::saturating_add`. -/
def satAdd (a b : Nat) : Nat := min (a + b) (U128 - 1)

/-- `renormalize_scales` (math.rs): power-of-two clamp of both gauges
followed by a one-shot shift keyed on the squared virtual norm.  Left shifts
model the Rust `<<`, which drops bits above 2^128.  Returns the updated
`(σ_long, σ_short)` pair. -/
def renormalizeScales (sigmaLong sigmaShort sLongDisplay sShortDisplay : Nat) :
    Nat × Nat :=
  let maxSigma := max sigmaLong sigmaShort
  let p1 :=
    if maxSigma > SIGMA_MAX then
      let excessBits := bitlen maxSigma - bitlen SIGMA_MAX
      (sigmaLong / 2 ^ excessBits, sigmaShort / 2 ^ excessBits)
    else (sigmaLong, sigmaShort)
  let minSigma := min p1.1 p1.2
  let p2 :=
    if minSigma < SIGMA_MIN then
      let deficitBits := bitlen SIGMA_MIN - bitlen minSigma
      (p1.1 * 2 ^ deficitBits % U128, p1.2 * 2 ^ deficitBits % U128)
    else p1
  let sLongVirtual := virtualSupply sLongDisplay p2.1
  let sShortVirtual := virtualSupply sShortDisplay p2.2
  let normSq := satAdd (satMul sLongVirtual sLongVirtual)
    (satMul sShortVirtual sShortVirtual)
  if normSq = 0 then p2
  else if normSq < VIRTUAL_NORM_MIN * VIRTUAL_NORM_MIN then
    let needBits := bitlen (VIRTUAL_NORM_MIN * VIRTUAL_NORM_MIN) - bitlen normSq
    let k := (needBits + 1) / 2
    (p2.1 / 2 ^ k, p2.2 / 2 ^ k)
  else if normSq > VIRTUAL_NORM_MAX * VIRTUAL_NORM_MAX then
    let needBits := bitlen normSq - bitlen (VIRTUAL_NORM_MAX * VIRTUAL_NORM_MAX)
    let k := (needBits + 1) / 2
    (p2.1 * 2 ^ k % U128, p2.2 * 2 ^ k % U128)
  else p2

/-- The Anchor `require!(cond, err)` macro: continue when `cond` holds,
abort with `err` otherwise. -/
def require (c : Prop) [Decidable c] (e : Err) : Except Err PUnit :=
  if c then .ok PUnit.unit else .error e

/-- The `checked_*().ok_or(err)?` / guard pattern: abort with `err` when the
overflow or underflow condition `c` holds. -/
def failIf (c : Prop) [Decidable c] (e : Err) : Except Err PUnit :=
  if c then .error e else .ok PUnit.unit

/-- `TokenSide` (state.rs). -/
inductive TokenSide where
  | long
  | short
  deriving DecidableEq, Repr

/-- `ICBSCurve::cost_function` (curve.rs): gate on `(F, β) = (1, ½)`, then
`λ · ‖(s_L, s_S)‖` via `mul_x96`. -/
def costFunction (sLong sShort lambdaX96 f betaNum betaDen : Nat) :
    Except Err Nat := do
  let _ ← require (f = 1 ∧ betaNum = 1 ∧ betaDen = 2) .invalidParameter
  let sumOfSquares := sLong * sLong + sShort * sShort
  let _ ← failIf (sumOfSquares ≥ U128) .numericalOverflow
  let norm := isqrt sumOfSquares
  mulX96 lambdaX96 norm

/-- The common tail of `sqrt_marginal_price_from_virtual` (curve.rs) once the
side has been selected: for picked virtual supply `sV` with gauge `sigma` and
opposite virtual supply `sOther`, computes
`isqrt(mul_div(mul_div(λ, sV, ‖ŝ‖), Q64, σ)) << 48`, with `0` for `sV = 0`. -/
def pricePipeline (sV sOther lambdaQ96 sigma : Nat) : Except Err Nat :=
  if sV = 0 then .ok 0
  else do
    let sumOfSquares := sV * sV + sOther * sOther
    let _ ← failIf (sumOfSquares ≥ U128) .numericalOverflow
    let normV := max (isqrt sumOfSquares) 1
    let pVQ96 ← mulDiv lambdaQ96 sV normV
    let pDQ96 ← mulDiv pVQ96 Q64 sigma
    pure (isqrt pDQ96 * 2 ^ 48)

/-- `ICBSCurve::sqrt_marginal_price_from_virtual` (curve.rs). -/
def sqrtMarginalPriceFromVirtual (sLongV sShortV : Nat) (side : TokenSide)
    (lambdaQ96 sigmaLongQ64 sigmaShortQ64 : Nat) (f betaNum betaDen : Nat) :
    Except Err Nat := do
  let _ ← require (f = 1 ∧ betaNum = 1 ∧ betaDen = 2) .invalidParameter
  match side with
  | .long => pricePipeline sLongV sShortV lambdaQ96 sigmaLongQ64
  | .short => pricePipeline sShortV sLongV lambdaQ96 sigmaShortQ64

/-- `ICBSCurve::sqrt_marginal_price` (curve.rs), the legacy display-supply
form used by decay.rs. -/
def sqrtMarginalPrice (sLong sShort : Nat) (side : TokenSide)
    (lambdaQ96 f betaNum betaDen : Nat) : Except Err Nat := do
  let _ ← require (f = 1 ∧ betaNum = 1 ∧ betaDen = 2) .invalidParameter
  let s := match side with
    | TokenSide.long => sLong
    | TokenSide.short => sShort
  if s = 0 then pure 0
  else do
    let sumOfSquares := sLong * sLong + sShort * sShort
    let _ ← failIf (sumOfSquares ≥ U128) .numericalOverflow
    let norm := max (isqrt sumOfSquares) 1
    let pQ96 ← mulDiv lambdaQ96 s norm
    pure (isqrt pQ96 * 2 ^ 48)

/-- `ICBSCurve::calculate_buy` (curve.rs).  `currentS`, `sOther` are virtual
supplies; returns `(delta_s_virtual, new display sqrt price)`.  The
`delta_norm` step uses the GCD-reduced private `mul_div_u128` of curve.rs. -/
def calculateBuy (currentS usdcIn lambdaQ96 sOther f betaNum betaDen : Nat)
    (isLong : Bool) (sigmaLongQ64 sigmaShortQ64 : Nat) :
    Except Err (Nat × Nat) := do
  let _ ← require (f = 1 ∧ betaNum = 1 ∧ betaDen = 2) .invalidParameter
  let sumSq := currentS * currentS + sOther * sOther
  let _ ← failIf (sumSq ≥ U128) .numericalOverflow
  let normBefore := isqrt sumSq
  let deltaNorm ← gcdMulDiv usdcIn Q96 lambdaQ96
  let normAfter := normBefore + deltaNorm
  let _ ← failIf (normAfter ≥ U128) .numericalOverflow
  let _ ← failIf (normAfter > U64 - 1) .numericalOverflow
  let normAfterSq := normAfter * normAfter
  let sOtherSq := sOther * sOther
  let _ ← failIf (normAfterSq < sOtherSq) .numericalOverflow
  let newS := isqrt (normAfterSq - sOtherSq)
  let _ ← failIf (newS < currentS) .numericalOverflow
  let deltaS := newS - currentS
  let _ ← failIf (deltaS > U64 - 1) .supplyOverflow
  let finalS := min (currentS + deltaS) (U64 - 1)
  let finalSqrtPrice ←
    if isLong then
      sqrtMarginalPriceFromVirtual finalS sOther .long lambdaQ96
        sigmaLongQ64 sigmaShortQ64 f betaNum betaDen
    else
      sqrtMarginalPriceFromVirtual sOther finalS .short lambdaQ96
        sigmaLongQ64 sigmaShortQ64 f betaNum betaDen
  return (deltaS, finalSqrtPrice)

/-- `ICBSCurve::calculate_sell` (curve.rs): `checked_sub` first
(`InsufficientBalance`), then the `(F, β)` gate via `cost_function`, then
saturating cost difference and the after price. -/
def calculateSell (currentS tokensToSell lambdaQ96 sOther f betaNum betaDen : Nat)
    (isLong : Bool) (sigmaLongQ64 sigmaShortQ64 : Nat) :
    Except Err (Nat × Nat) := do
  let _ ← failIf (currentS < tokensToSell) .insufficientBalance
  let sNew := currentS - tokensToSell
  let sLBefore := if isLong then currentS else sOther
  let sSBefore := if isLong then sOther else currentS
  let sLAfter := if isLong then sNew else sOther
  let sSAfter := if isLong then sOther else sNew
  let costBefore ← costFunction sLBefore sSBefore lambdaQ96 f betaNum betaDen
  let costAfter ← costFunction sLAfter sSAfter lambdaQ96 f betaNum betaDen
  let usdcOut := costBefore - costAfter
  let _ ← failIf (usdcOut > U64 - 1) .numericalOverflow
  let sqrtPriceAfter ←
    if isLong then
      sqrtMarginalPriceFromVirtual sNew sOther .long lambdaQ96
        sigmaLongQ64 sigmaShortQ64 f betaNum betaDen
    else
      sqrtMarginalPriceFromVirtual sOther sNew .short lambdaQ96
        sigmaLongQ64 sigmaShortQ64 f betaNum betaDen
  return (usdcOut, sqrtPriceAfter)

/-- `ICBSCurve::reserve_from_lambda_and_virtual` (curve.rs). -/
def reserveFromLambdaAndVirtual (sThisV sOtherV lambdaQ96 : Nat) :
    Except Err Nat := do
  let sumSq := sThisV * sThisV + sOtherV * sOtherV
  let _ ← failIf (sumSq ≥ U128) .numericalOverflow
  let normV := max (isqrt sumSq) 1
  let pVQ96 ← mulDiv lambdaQ96 sThisV normV
  let rThis ← mulDiv pVQ96 sThisV Q96
  let _ ← failIf (rThis > U64 - 1) .numericalOverflow
  pure rThis

/-- The mutable numeric state of `ContentPool` (state.rs).  Pubkey identity
fields are dropped except for the deployment flag, which stands for the
`market_deployer != Pubkey::default()` test.  Timestamps are `i64` in the
source and are modeled as `Int`.  Both the deprecated `lambda_*_q96`
telemetry fields (written by trade.rs) and the `sqrt_lambda_*_x96` fields
(written by deploy_market.rs, read by decay.rs) are carried. -/
structure Pool where
  sLong : Nat
  sShort : Nat
  rLong : Nat
  rShort : Nat
  sqrtPriceLongX96 : Nat
  sqrtPriceShortX96 : Nat
  sScaleLongQ64 : Nat
  sScaleShortQ64 : Nat
  lambdaLongQ96 : Nat
  lambdaShortQ96 : Nat
  sqrtLambdaLongX96 : Nat
  sqrtLambdaShortX96 : Nat
  lastSettleTs : Int
  minSettleInterval : Int
  currentEpoch : Nat
  expirationTimestamp : Int
  lastDecayUpdate : Int
  vaultBalance : Nat
  initialQ : Nat
  f : Nat
  betaNum : Nat
  betaDen : Nat
  marketDeployed : Bool
  deriving DecidableEq, Repr

/-- Steps 1–4 of `derive_lambda`: the band-free derivation shared verbatim by
trade.rs (`derive_lambda`, before its step 5 sanity check) and
settle_epoch.rs (`derive_lambda`, which has no sanity check).
`vaultAmount` is the balance of the vault token account at the call. -/
def deriveLambdaRaw (vaultAmount : Nat) (pool : Pool) : Except Err Nat := do
  let sLongVirtual := virtualSupply pool.sLong pool.sScaleLongQ64
  let sShortVirtual := virtualSupply pool.sShort pool.sScaleShortQ64
  let _ ← failIf (sLongVirtual > U64 - 1) .virtualSupplyOverflow
  let _ ← failIf (sShortVirtual > U64 - 1) .virtualSupplyOverflow
  let normSq := sLongVirtual * sLongVirtual + sShortVirtual * sShortVirtual
  let _ ← failIf (normSq ≥ U128) .numericalOverflow
  let norm := max (isqrt normSq) 1
  let q := vaultAmount / norm
  let r := vaultAmount % norm
  let _ ← failIf (q * Q96 ≥ U128) .numericalOverflow
  let _ ← failIf (r * Q96 ≥ U128) .numericalOverflow
  let lambdaQ96 := q * Q96 + r * Q96 / norm
  let _ ← failIf (lambdaQ96 ≥ U128) .numericalOverflow
  pure lambdaQ96

/-- `derive_lambda` (trade.rs), also invoked by add_liquidity.rs: the raw
derivation followed by the step-5 sanity gate
`10 ≤ λ_Q96 / 2^96 ≤ 10^11`, rejected as `InvalidParameter`. -/
def deriveLambdaTrade (vaultAmount : Nat) (pool : Pool) : Except Err Nat := do
  let lambdaQ96 ← deriveLambdaRaw vaultAmount pool
  let lambdaUsdc := lambdaQ96 / Q96
  let _ ← require (10 ≤ lambdaUsdc ∧ lambdaUsdc ≤ 100000000000) .invalidParameter
  pure lambdaQ96

/-- Lines 62–98 of `settle_epoch::handler` (settle_epoch.rs): the market
prediction `q` from stored reserves (default 50% when empty), its clamp to
`[0.1%, 99.9%]`, the raw factors `f_L = bd/q` and `f_S = (1-bd)/(1-q)` in
millionths, and the hard caps to `[F_MIN, F_MAX]`.  Returns
`(f_long, f_short)`. -/
def settleFactors (rLong rShort bdScore : Nat) : Nat × Nat :=
  let totalReserves := rLong + rShort
  let q := if totalReserves = 0 then 500000
    else rLong * 1000000 / totalReserves
  let qClamped := if q < 1000 then 1000 else if q > 999000 then 999000 else q
  let fLongRaw := bdScore * 1000000 / qClamped
  let oneMinusX := 1000000 - bdScore
  let oneMinusQ := 1000000 - qClamped
  let fShortRaw := oneMinusX * 1000000 / oneMinusQ
  (min (max fLongRaw F_MIN) F_MAX, min (max fShortRaw F_MIN) F_MAX)

/-- Lines 47–54 of `settle_epoch::handler` (settle_epoch.rs): the cooldown
gate, skipped entirely when `last_settle_ts == 0`. -/
def checkCooldown (lastSettleTs minSettleInterval now : Int) :
    Except Err PUnit :=
  if lastSettleTs > 0 then
    if now - lastSettleTs ≥ minSettleInterval then .ok PUnit.unit
    else .error .settlementCooldown
  else .ok PUnit.unit

/-- `settle_epoch::handler` (settle_epoch.rs).  `vaultAmount` is the vault
token-account balance (unchanged by settlement), `now` the clock, `bdScore`
the oracle score in millionths.  Token-account plumbing and the event are
dropped; the returned pool is the persisted post-state. -/
def settleEpoch (pool : Pool) (vaultAmount : Nat) (now : Int) (bdScore : Nat) :
    Except Err Pool := do
  let _ ← checkCooldown pool.lastSettleTs pool.minSettleInterval now
  let _ ← require (bdScore ≤ 1000000) .invalidBDScore
  let fLong := (settleFactors pool.rLong pool.rShort bdScore).1
  let fShort := (settleFactors pool.rLong pool.rShort bdScore).2
  let fLongQ64 := fLong * 2 ^ 64 / 1000000
  let fShortQ64 := fShort * 2 ^ 64 / 1000000
  let sigmaLong1 ← mulDiv pool.sScaleLongQ64 fLongQ64 Q64
  let sigmaShort1 ← mulDiv pool.sScaleShortQ64 fShortQ64 Q64
  let sigmas := renormalizeScales sigmaLong1 sigmaShort1 pool.sLong pool.sShort
  let rLong1 ← mulDiv pool.rLong fLong 1000000
  let rShort1 ← mulDiv pool.rShort fShort 1000000
  let rLong1 := rLong1 % U64
  let rShort1 := rShort1 % U64
  let totalAfter := rLong1 + rShort1
  let target := pool.vaultBalance
  let reserves ←
    if totalAfter > 0 then
      if totalAfter ≠ target then do
        let rLongNew ← mulDiv rLong1 target totalAfter
        pure (rLongNew % U64, (target - rLongNew) % U64)
      else pure (rLong1, rShort1)
    else pure (rLong1, rShort1)
  let pool1 : Pool := { pool with
    sScaleLongQ64 := sigmas.1
    sScaleShortQ64 := sigmas.2
    rLong := reserves.1
    rShort := reserves.2 }
  let sLongV := virtualSupply pool1.sLong pool1.sScaleLongQ64 % U64
  let sShortV := virtualSupply pool1.sShort pool1.sScaleShortQ64 % U64
  let lambdaQ96 ← deriveLambdaRaw vaultAmount pool1
  let priceLong ← sqrtMarginalPriceFromVirtual sLongV sShortV .long lambdaQ96
    pool1.sScaleLongQ64 pool1.sScaleShortQ64 pool1.f pool1.betaNum pool1.betaDen
  let priceShort ← sqrtMarginalPriceFromVirtual sLongV sShortV .short lambdaQ96
    pool1.sScaleLongQ64 pool1.sScaleShortQ64 pool1.f pool1.betaNum pool1.betaDen
  let _ ← failIf (pool1.currentEpoch + 1 ≥ U64) .numericalOverflow
  return { pool1 with
    sqrtPriceLongX96 := priceLong
    sqrtPriceShortX96 := priceShort
    lastSettleTs := now
    currentEpoch := pool1.currentEpoch + 1 }

/-- `calculate_decayed_reserves` (decay.rs): settlement-style reserve scaling
toward the decayed target prediction.  `i64` divisions truncate toward zero
(`Int.tdiv`). -/
def calculateDecayedReserves (pool : Pool) (currentTimestamp : Int) :
    Except Err (Nat × Nat) :=
  if currentTimestamp ≤ pool.expirationTimestamp then
    .ok (pool.rLong, pool.rShort)
  else
    let secondsExpired := currentTimestamp - pool.expirationTimestamp
    let daysExpired := (Int.tdiv secondsExpired SECONDS_PER_DAY).toNat
    if daysExpired = 0 then .ok (pool.rLong, pool.rShort)
    else
      let totalReserves := pool.rLong + pool.rShort
      if totalReserves = 0 then .ok (0, 0)
      else do
        let q := pool.rLong * Q32_ONE / totalReserves
        let decayRateBps :=
          if daysExpired < 7 then DECAY_TIER_1_BPS
          else if daysExpired < 30 then DECAY_TIER_2_BPS
          else DECAY_TIER_3_BPS
        let qBps := q * 10000 / Q32_ONE
        let totalDecayBps := daysExpired * decayRateBps
        let _ ← failIf (totalDecayBps ≥ U128) .numericalOverflow
        let xDecayBps := max (qBps - totalDecayBps) DECAY_MIN_Q_BPS
        let xDecay := xDecayBps * Q32_ONE / 10000
        let _ ← failIf (q = 0) .numericalOverflow
        let fLong := xDecay * Q32_ONE / q
        let numeratorShort := (Q32_ONE - xDecay) * Q32_ONE
        let denominatorShort := Q32_ONE - q
        let _ ← failIf (denominatorShort = 0) .numericalOverflow
        let fShort := numeratorShort / denominatorShort
        let _ ← failIf (pool.rLong * fLong ≥ U128) .numericalOverflow
        let _ ← failIf (pool.rShort * fShort ≥ U128) .numericalOverflow
        pure (pool.rLong * fLong / Q32_ONE % U64,
          pool.rShort * fShort / Q32_ONE % U64)

/-- `apply_decay_if_needed` (decay.rs): returns the updated pool and whether
decay was applied.  Price recomputation reads the stored
`sqrt_lambda_*_x96` fields through the legacy `sqrt_marginal_price`. -/
def applyDecayIfNeeded (pool : Pool) (currentTimestamp : Int) :
    Except Err (Pool × Bool) :=
  let daysSinceUpdate :=
    Int.tdiv (currentTimestamp - pool.lastDecayUpdate) SECONDS_PER_DAY
  if daysSinceUpdate < 1 then .ok (pool, false)
  else do
    let decayed ← calculateDecayedReserves pool currentTimestamp
    let priceLong ← sqrtMarginalPrice pool.sLong pool.sShort .long
      pool.sqrtLambdaLongX96 pool.f pool.betaNum pool.betaDen
    let priceShort ← sqrtMarginalPrice pool.sLong pool.sShort .short
      pool.sqrtLambdaShortX96 pool.f pool.betaNum pool.betaDen
    pure ({ pool with
      rLong := decayed.1
      rShort := decayed.2
      lastDecayUpdate := currentTimestamp
      sqrtPriceLongX96 := priceLong
      sqrtPriceShortX96 := priceShort }, true)

/-- `calc_fees` (trade.rs): `(total, creator, protocol)` in µUSDC; the
intermediate `as u64` casts truncate. -/
def calcFees (amount totalBps splitBps : Nat) : Except Err (Nat × Nat × Nat) := do
  let total := amount * totalBps / 10000 % U64
  let creator := total * splitBps / 10000 % U64
  let _ ← failIf (total < creator) .feeCalculationOverflow
  pure (total, creator, total - creator)

/-- The buy arm of `trade::handler` (trade.rs).  `vaultAmount0` is the vault
token-account balance on entry; the net trade amount is transferred in before
λ is derived.  Mint/transfer plumbing and events are dropped; the returned
pool is the persisted post-state. -/
def tradeBuy (pool : Pool) (vaultAmount0 : Nat) (side : TokenSide)
    (amount stakeSkim minTokensOut totalFeeBps creatorSplitBps : Nat) :
    Except Err Pool := do
  let _ ← require (pool.marketDeployed = true) .marketNotDeployed
  let _ ← require (amount ≥ MIN_TRADE_SIZE ∧ amount ≤ MAX_TRADE_SIZE)
    .invalidTradeAmount
  let _ ← require (stakeSkim ≤ amount) .invalidStakeSkim
  let afterSkim := amount - stakeSkim
  let _ ← require (stakeSkim ≤ amount / 2) .invalidStakeSkim
  let fees ← calcFees afterSkim totalFeeBps creatorSplitBps
  let totalFee := fees.1
  let _ ← failIf (afterSkim < totalFee) .feeCalculationOverflow
  let usdcToTrade := afterSkim - totalFee
  let sigmas := renormalizeScales pool.sScaleLongQ64 pool.sScaleShortQ64
    pool.sLong pool.sShort
  let pool1 : Pool := { pool with
    sScaleLongQ64 := sigmas.1
    sScaleShortQ64 := sigmas.2 }
  let lambdaQ96 ← deriveLambdaTrade (vaultAmount0 + usdcToTrade) pool1
  let sLongVirtual := virtualSupply pool1.sLong pool1.sScaleLongQ64
  let sShortVirtual := virtualSupply pool1.sShort pool1.sScaleShortQ64
  let isLong : Bool := match side with
    | TokenSide.long => true
    | TokenSide.short => false
  let currentV := if isLong then sLongVirtual % U64 else sShortVirtual % U64
  let otherV := if isLong then sShortVirtual % U64 else sLongVirtual % U64
  let buyResult ← calculateBuy currentV usdcToTrade lambdaQ96 otherV
    pool1.f pool1.betaNum pool1.betaDen isLong
    pool1.sScaleLongQ64 pool1.sScaleShortQ64
  let deltaSVirtual := buyResult.1
  let newSqrtPrice := buyResult.2
  let deltaDisplay :=
    if isLong then roundToNearest (deltaSVirtual * pool1.sScaleLongQ64) Q64
    else roundToNearest (deltaSVirtual * pool1.sScaleShortQ64) Q64
  let _ ← require (deltaDisplay > 0 ∨ usdcToTrade = 0) .tooSmallAfterRounding
  let newSupply := (if isLong then pool1.sLong else pool1.sShort) + deltaDisplay
  let _ ← failIf (newSupply ≥ U64) .numericalOverflow
  let _ ← require (newSupply ≤ S_DISPLAY_CAP) .supplyOverflow
  let _ ← failIf (deltaDisplay * TOKEN_SCALE ≥ U64) .supplyOverflow
  let deltaAtomic := deltaDisplay * TOKEN_SCALE
  let _ ← require (deltaAtomic ≥ minTokensOut) .slippageExceeded
  let _ ← failIf (pool1.vaultBalance + usdcToTrade ≥ U64) .numericalOverflow
  let vaultBalance1 := pool1.vaultBalance + usdcToTrade
  let sLongVAfter := if isLong then sLongVirtual % U64 + deltaSVirtual
    else sLongVirtual % U64
  let sShortVAfter := if isLong then sShortVirtual % U64
    else sShortVirtual % U64 + deltaSVirtual
  let otherSide : TokenSide := if isLong then .short else .long
  let otherPrice ← sqrtMarginalPriceFromVirtual (sLongVAfter % U64)
    (sShortVAfter % U64) otherSide lambdaQ96 pool1.sScaleLongQ64
    pool1.sScaleShortQ64 pool1.f pool1.betaNum pool1.betaDen
  let pool2 : Pool :=
    if isLong then
      { pool1 with
        sLong := pool1.sLong + deltaDisplay
        vaultBalance := vaultBalance1
        sqrtPriceLongX96 := newSqrtPrice
        sqrtPriceShortX96 := otherPrice }
    else
      { pool1 with
        sShort := pool1.sShort + deltaDisplay
        vaultBalance := vaultBalance1
        sqrtPriceLongX96 := otherPrice
        sqrtPriceShortX96 := newSqrtPrice }
  let rLongCalc ← reserveFromLambdaAndVirtual (sLongVAfter % U64)
    (sShortVAfter % U64) lambdaQ96
  return { pool2 with
    rLong := min rLongCalc pool2.vaultBalance
    rShort := pool2.vaultBalance - min rLongCalc pool2.vaultBalance
    lambdaLongQ96 := lambdaQ96
    lambdaShortQ96 := lambdaQ96 }

/-- The sell arm of `trade::handler` (trade.rs).  `amount` is in atomic
units; `vaultAmount0` is the vault token-account balance on entry (the curve
runs before any funds leave the vault). -/
def tradeSell (pool : Pool) (vaultAmount0 : Nat) (side : TokenSide)
    (amount minUsdcOut totalFeeBps creatorSplitBps : Nat) :
    Except Err Pool := do
  let _ ← require (pool.marketDeployed = true) .marketNotDeployed
  let _ ← require (amount ≥ MIN_TOKEN_TRADE_SIZE) .invalidTradeAmount
  let _ ← require (amount % TOKEN_SCALE = 0) .invalidTradeAmount
  let sellDisplay := amount / TOKEN_SCALE
  let _ ← require (sellDisplay ≥ MIN_TOKEN_TRADE_SIZE) .invalidTradeAmount
  let sigmas := renormalizeScales pool.sScaleLongQ64 pool.sScaleShortQ64
    pool.sLong pool.sShort
  let pool1 : Pool := { pool with
    sScaleLongQ64 := sigmas.1
    sScaleShortQ64 := sigmas.2 }
  let lambdaQ96 ← deriveLambdaTrade vaultAmount0 pool1
  let sLongVirtual := virtualSupply pool1.sLong pool1.sScaleLongQ64
  let sShortVirtual := virtualSupply pool1.sShort pool1.sScaleShortQ64
  let isLong : Bool := match side with
    | TokenSide.long => true
    | TokenSide.short => false
  let sellVirtual :=
    if isLong then roundToNearest (sellDisplay * Q64) pool1.sScaleLongQ64
    else roundToNearest (sellDisplay * Q64) pool1.sScaleShortQ64
  let _ ← require (sellVirtual > 0) .tooSmallAfterRounding
  let currentV := if isLong then sLongVirtual % U64 else sShortVirtual % U64
  let otherV := if isLong then sShortVirtual % U64 else sLongVirtual % U64
  let sellResult ← calculateSell currentV sellVirtual lambdaQ96 otherV
    pool1.f pool1.betaNum pool1.betaDen isLong
    pool1.sScaleLongQ64 pool1.sScaleShortQ64
  let grossUsdcOut := sellResult.1
  let newSqrtPrice := sellResult.2
  let fees ← calcFees grossUsdcOut totalFeeBps creatorSplitBps
  let totalFee := fees.1
  let _ ← failIf (grossUsdcOut < totalFee) .feeCalculationOverflow
  let netUsdcOut := grossUsdcOut - totalFee
  let _ ← require (netUsdcOut ≥ minUsdcOut) .slippageExceeded
  let _ ← failIf (pool1.vaultBalance < grossUsdcOut) .insufficientBalance
  let vaultBalance1 := pool1.vaultBalance - grossUsdcOut
  let _ ← failIf ((if isLong then pool1.sLong else pool1.sShort) < sellDisplay)
    .insufficientBalance
  let _ ← failIf (currentV < sellVirtual) .insufficientBalance
  let sLongVAfter := if isLong then currentV - sellVirtual else otherV
  let sShortVAfter := if isLong then otherV else currentV - sellVirtual
  let otherSide : TokenSide := if isLong then .short else .long
  let otherPrice ← sqrtMarginalPriceFromVirtual sLongVAfter sShortVAfter
    otherSide lambdaQ96 pool1.sScaleLongQ64 pool1.sScaleShortQ64
    pool1.f pool1.betaNum pool1.betaDen
  let pool2 : Pool :=
    if isLong then
      { pool1 with
        sLong := pool1.sLong - sellDisplay
        vaultBalance := vaultBalance1
        sqrtPriceLongX96 := newSqrtPrice
        sqrtPriceShortX96 := otherPrice }
    else
      { pool1 with
        sShort := pool1.sShort - sellDisplay
        vaultBalance := vaultBalance1
        sqrtPriceLongX96 := otherPrice
        sqrtPriceShortX96 := newSqrtPrice }
  let _ ← require (pool2.sLong ≥ MIN_POOL_LIQUIDITY ∧
    pool2.sShort ≥ MIN_POOL_LIQUIDITY) .noLiquidity
  let rLongCalc ← reserveFromLambdaAndVirtual sLongVAfter sShortVAfter lambdaQ96
  return { pool2 with
    rLong := min rLongCalc pool2.vaultBalance
    rShort := pool2.vaultBalance - min rLongCalc pool2.vaultBalance
    lambdaLongQ96 := lambdaQ96
    lambdaShortQ96 := lambdaQ96 }

/-- `price_display_q96` (add_liquidity.rs, local fn). -/
def priceDisplayQ96 (sSelfV sOtherV sigmaSelfQ64 lambdaQ96 : Nat) :
    Except Err Nat := do
  let normVSq := sSelfV * sSelfV + sOtherV * sOtherV
  let _ ← failIf (normVSq ≥ U128) .numericalOverflow
  let normV := max (isqrt normVSq) 1
  let pVQ96 ← mulDiv lambdaQ96 sSelfV normV
  mulDiv pVQ96 Q64 sigmaSelfQ64

/-- `to_display_tokens` (add_liquidity.rs, local closure):
`⌊usdc·2^96 / p⌋` via a 256-bit dividend split `hi = usdc >> 32`,
`lo = usdc << 96`. -/
def toDisplayTokens (usdc pDQ96 : Nat) : Except Err Nat := do
  let _ ← require (pDQ96 > 0) .numericalOverflow
  let t ← div256By128 (usdc / 2 ^ 32) (usdc % 2 ^ 32 * 2 ^ 96) pDQ96
  let _ ← require (t ≤ U64 - 1) .numericalOverflow
  pure t

/-- `add_liquidity::handler` (add_liquidity.rs).  `vaultAmount0` is the vault
balance on entry; the USDC moves in before λ is derived. -/
def addLiquidity (pool : Pool) (vaultAmount0 usdcAmount : Nat) :
    Except Err Pool := do
  let _ ← require (usdcAmount > 0) .invalidTradeAmount
  let _ ← require (pool.marketDeployed = true) .marketNotDeployed
  let sigmas := renormalizeScales pool.sScaleLongQ64 pool.sScaleShortQ64
    pool.sLong pool.sShort
  let pool1 : Pool := { pool with
    sScaleLongQ64 := sigmas.1
    sScaleShortQ64 := sigmas.2 }
  let sLongV := virtualSupply pool1.sLong pool1.sScaleLongQ64
  let sShortV := virtualSupply pool1.sShort pool1.sScaleShortQ64
  let totalReserves := pool1.rLong + pool1.rShort
  let _ ← require (totalReserves > 0) .noLiquidity
  let qMicro := pool1.rLong * 1000000 / totalReserves
  let longUsdc := usdcAmount * qMicro / 1000000 % U64
  let _ ← failIf (usdcAmount < longUsdc) .numericalOverflow
  let shortUsdc := usdcAmount - longUsdc
  let lambdaQ96 ← deriveLambdaTrade (vaultAmount0 + usdcAmount) pool1
  let pLongDQ96 ←
    if sLongV > 0 then priceDisplayQ96 sLongV sShortV pool1.sScaleLongQ64 lambdaQ96
    else mulDiv lambdaQ96 Q64 pool1.sScaleLongQ64
  let pShortDQ96 ←
    if sShortV > 0 then priceDisplayQ96 sShortV sLongV pool1.sScaleShortQ64 lambdaQ96
    else mulDiv lambdaQ96 Q64 pool1.sScaleShortQ64
  let longTokensDisplay ← toDisplayTokens longUsdc pLongDQ96
  let shortTokensDisplay ← toDisplayTokens shortUsdc pShortDQ96
  let _ ← failIf (longTokensDisplay * TOKEN_SCALE ≥ U64) .supplyOverflow
  let _ ← failIf (shortTokensDisplay * TOKEN_SCALE ≥ U64) .supplyOverflow
  let _ ← failIf (pool1.sLong + longTokensDisplay ≥ U64) .numericalOverflow
  let _ ← failIf (pool1.sShort + shortTokensDisplay ≥ U64) .numericalOverflow
  let _ ← failIf (pool1.vaultBalance + usdcAmount ≥ U64) .numericalOverflow
  let pool2 : Pool := { pool1 with
    sLong := pool1.sLong + longTokensDisplay
    sShort := pool1.sShort + shortTokensDisplay
    vaultBalance := pool1.vaultBalance + usdcAmount }
  -- step 9 applies `.max(1)` without the zero-supply guard (line 224)
  let sLongVAfter := max (ceilDiv (pool2.sLong * Q64) pool2.sScaleLongQ64) 1
  let sShortVAfter := max (ceilDiv (pool2.sShort * Q64) pool2.sScaleShortQ64) 1
  let lambdaQ96After ← deriveLambdaTrade (vaultAmount0 + usdcAmount) pool2
  let priceLong ← sqrtMarginalPriceFromVirtual (sLongVAfter % U64)
    (sShortVAfter % U64) .long lambdaQ96After pool2.sScaleLongQ64
    pool2.sScaleShortQ64 pool2.f pool2.betaNum pool2.betaDen
  let priceShort ← sqrtMarginalPriceFromVirtual (sLongVAfter % U64)
    (sShortVAfter % U64) .short lambdaQ96After pool2.sScaleLongQ64
    pool2.sScaleShortQ64 pool2.f pool2.betaNum pool2.betaDen
  let rLongCalc ← reserveFromLambdaAndVirtual (sLongVAfter % U64)
    (sShortVAfter % U64) lambdaQ96After
  return { pool2 with
    sqrtPriceLongX96 := priceLong
    sqrtPriceShortX96 := priceShort
    rLong := min rLongCalc pool2.vaultBalance
    rShort := pool2.vaultBalance - min rLongCalc pool2.vaultBalance }

/-- The candidate record of `deploy_market::handler` (deploy_market.rs). -/
structure DeployCandidate where
  sLong : Nat
  sShort : Nat
  lambdaX96 : Nat
  sqrtLambdaX96 : Nat
  sqrtPriceLongX96 : Nat
  sqrtPriceShortX96 : Nat
  rLong : Nat
  rShort : Nat
  ratioError : Nat
  deriving DecidableEq, Repr

/-- The pool fields `deploy_market::handler` persists on success. -/
structure DeployOutcome where
  sLong : Nat
  sShort : Nat
  rLong : Nat
  rShort : Nat
  sqrtLambdaX96 : Nat
  sqrtPriceLongX96 : Nat
  sqrtPriceShortX96 : Nat
  initialQ : Nat
  vaultBalance : Nat
  deriving DecidableEq, Repr

/-- The per-candidate Option A computation of deploy_market.rs (lines
260–344): exact deploy prices from the deposit identity, λ from the curve's
own integer norm, reserves through `mul_shift_right_96`. -/
def deployCandidate (initialDeposit aL aS sLCand sSCand : Nat) :
    Except Err DeployCandidate := do
  let _ ← failIf (sLCand * sLCand ≥ U128) .numericalOverflow
  let _ ← failIf (sSCand * sSCand ≥ U128) .numericalOverflow
  let n2 := sLCand * sLCand + sSCand * sSCand
  let _ ← failIf (n2 ≥ U128) .numericalOverflow
  let dOverN2Q96 ← mulDiv initialDeposit Q96 n2
  let pLongQ96 := dOverN2Q96 * sLCand
  let _ ← failIf (pLongQ96 ≥ U128) .numericalOverflow
  let pShortQ96 := dOverN2Q96 * sSCand
  let _ ← failIf (pShortQ96 ≥ U128) .numericalOverflow
  let sqrtPriceLongX96 := isqrt pLongQ96 * 2 ^ 48 % U128
  let sqrtPriceShortX96 := isqrt pShortQ96 * 2 ^ 48 % U128
  let sNormInt := max (isqrt n2) 1
  let lambdaFromLong ← mulDiv pLongQ96 sNormInt sLCand
  let lambdaFromShort ← mulDiv pShortQ96 sNormInt sSCand
  let lambdaX96 := max lambdaFromLong lambdaFromShort
  let sqrtLambdaX96 := isqrt lambdaX96 * 2 ^ 48 % U128
  let rLong ← mulShiftRight96 pLongQ96 sLCand
  let rShort ← mulShiftRight96 pShortQ96 sSCand
  let rLong := rLong % U64
  let rShort := rShort % U64
  let _ ← failIf (rLong * aS ≥ U128) .numericalOverflow
  let _ ← failIf (rShort * aL ≥ U128) .numericalOverflow
  let crossL := rLong * aS
  let crossS := rShort * aL
  let ratioError := if crossL > crossS then crossL - crossS else crossS - crossL
  return {
    sLong := sLCand
    sShort := sSCand
    lambdaX96 := lambdaX96
    sqrtLambdaX96 := sqrtLambdaX96
    sqrtPriceLongX96 := sqrtPriceLongX96
    sqrtPriceShortX96 := sqrtPriceShortX96
    rLong := rLong
    rShort := rShort
    ratioError := ratioError }

/-- `deploy_market::handler` (deploy_market.rs): the numeric deployment path
given `(initial_deposit, long_allocation)` and the factory parameters
`p0 = default_p0`, `minInitialDeposit = min_initial_deposit`.  Account
plumbing, PDA checks and minting are dropped; the `MarketAlreadyDeployed`
guard is assumed passed (fresh pool). -/
def deployMarket (initialDeposit longAllocation p0 minInitialDeposit : Nat) :
    Except Err DeployOutcome := do
  let _ ← require (initialDeposit ≥ minInitialDeposit) .belowMinimumDeposit
  let _ ← failIf (initialDeposit < longAllocation) .invalidAllocation
  let shortAllocation := initialDeposit - longAllocation
  let _ ← require (longAllocation > 0 ∧ shortAllocation > 0) .invalidAllocation
  let _ ← require (p0 > 0) .invalidParameter
  let aL := longAllocation
  let aS := shortAllocation
  let aRef := max aL aS
  let _ ← failIf (aL * aRef ≥ U128) .numericalOverflow
  let _ ← failIf (aS * aRef ≥ U128) .numericalOverflow
  let sL0 := isqrt (aL * aRef) / p0
  let sS0 := isqrt (aS * aRef) / p0
  let _ ← require (sL0 > 0 ∧ sS0 > 0) .invalidAllocation
  let cand1 := (sL0, sS0)
  let cand2 := if sL0 ≥ sS0 then (sL0, sS0 + 1) else (sL0 + 1, sS0)
  let c1 ← deployCandidate initialDeposit aL aS cand1.1 cand1.2
  let c2 ← deployCandidate initialDeposit aL aS cand2.1 cand2.2
  let chosen := if c2.ratioError < c1.ratioError then c2 else c1
  let rSum := chosen.rLong + chosen.rShort
  let diff := if rSum > initialDeposit then rSum - initialDeposit
    else initialDeposit - rSum
  let _ ← require (diff ≤ initialDeposit / 10000) .numericalOverflow
  let initialQBps := if rSum > 0 then chosen.rLong * 10000 / rSum else 5000
  return {
    sLong := chosen.sLong
    sShort := chosen.sShort
    rLong := chosen.rLong
    rShort := chosen.rShort
    sqrtLambdaX96 := chosen.sqrtLambdaX96
    sqrtPriceLongX96 := chosen.sqrtPriceLongX96
    sqrtPriceShortX96 := chosen.sqrtPriceShortX96
    initialQ := initialQBps * Q32_ONE / 10000 % U64
    vaultBalance := rSum % U64 }

/-! ## Helper lemmas -/

/-- Bind on `Except` succeeds exactly when both stages succeed. -/
theorem bindEqOk {ε α β : Type} {a : Except ε α} {f : α → Except ε β} {b : β} :
    a >>= f = .ok b ↔ ∃ x, a = .ok x ∧ f x = .ok b := by
  cases a with
  | ok x =>
    constructor
    · intro h
      exact ⟨x, rfl, h⟩
    · rintro ⟨y, hy, hf⟩
      cases hy
      exact hf
  | error e =>
    constructor
    · intro h
      cases h
    · rintro ⟨y, hy, _⟩
      cases hy

@[simp]
theorem throw_bind {ε α β : Type} (e : ε) (k : α → Except ε β) :
    (throw e : Except ε α) >>= k = .error e := rfl

@[simp]
theorem throw_eq_error {ε α : Type} (e : ε) :
    (throw e : Except ε α) = .error e := rfl

@[simp]
theorem pure_eq_ok {ε α : Type} (a : α) :
    (pure a : Except ε α) = .ok a := rfl

@[simp]
theorem error_bind {ε α β : Type} (e : ε) (k : α → Except ε β) :
    (Except.error e : Except ε α) >>= k = .error e := rfl

@[simp]
theorem ok_bind {ε α β : Type} (a : α) (k : α → Except ε β) :
    (Except.ok a : Except ε α) >>= k = k a := rfl

/-- Destructuring a `require` guard in a success run. -/
theorem requireBindOk {β : Type} {c : Prop} [Decidable c] {e : Err}
    {f : PUnit → Except Err β} {p : β} :
    (require c e >>= f) = .ok p ↔ c ∧ f PUnit.unit = .ok p := by
  unfold require
  split
  · rename_i hc
    simp only [ok_bind]
    exact ⟨fun h => ⟨hc, h⟩, fun h => h.2⟩
  · rename_i hc
    simp only [error_bind]
    constructor
    · intro h
      cases h
    · rintro ⟨hcc, _⟩
      exact absurd hcc hc

/-- Destructuring a `failIf` guard in a success run. -/
theorem failIfBindOk {β : Type} {c : Prop} [Decidable c] {e : Err}
    {f : PUnit → Except Err β} {p : β} :
    (failIf c e >>= f) = .ok p ↔ ¬c ∧ f PUnit.unit = .ok p := by
  unfold failIf
  split
  · rename_i hc
    simp only [error_bind]
    constructor
    · intro h
      cases h
    · rintro ⟨hcc, _⟩
      exact absurd hc hcc
  · rename_i hc
    simp only [ok_bind]
    exact ⟨fun h => ⟨hc, h⟩, fun h => h.2⟩

/-- Failure analysis of a `require` guard. -/
theorem requireBindError {β : Type} {c : Prop} [Decidable c] {e e' : Err}
    {f : PUnit → Except Err β} :
    (require c e >>= f) = .error e' ↔
      (¬c ∧ e = e') ∨ (c ∧ f PUnit.unit = .error e') := by
  unfold require
  split
  · rename_i hc
    simp only [ok_bind]
    constructor
    · intro h
      exact Or.inr ⟨hc, h⟩
    · rintro (⟨hcc, _⟩ | ⟨_, h⟩)
      · exact absurd hc hcc
      · exact h
  · rename_i hc
    simp only [error_bind]
    constructor
    · intro h
      cases h
      exact Or.inl ⟨hc, rfl⟩
    · rintro (⟨_, h⟩ | ⟨hcc, _⟩)
      · rw [h]
      · exact absurd hcc hc

/-- Failure analysis of a `failIf` guard. -/
theorem failIfBindError {β : Type} {c : Prop} [Decidable c] {e e' : Err}
    {f : PUnit → Except Err β} :
    (failIf c e >>= f) = .error e' ↔
      (c ∧ e = e') ∨ (¬c ∧ f PUnit.unit = .error e') := by
  unfold failIf
  split
  · rename_i hc
    simp only [error_bind]
    constructor
    · intro h
      cases h
      exact Or.inl ⟨hc, rfl⟩
    · rintro (⟨_, h⟩ | ⟨hcc, _⟩)
      · rw [h]
      · exact absurd hc hcc
  · rename_i hc
    simp only [ok_bind]
    constructor
    · intro h
      exact Or.inr ⟨hc, h⟩
    · rintro (⟨hcc, _⟩ | ⟨_, h⟩)
      · exact absurd hcc hc
      · exact h

/-- Bind on `Except` fails exactly when one of the stages fails. -/
theorem bindEqError {ε α β : Type} {a : Except ε α} {f : α → Except ε β} {e : ε} :
    a >>= f = .error e ↔ a = .error e ∨ ∃ x, a = .ok x ∧ f x = .error e := by
  cases a with
  | ok x =>
    constructor
    · intro h
      exact Or.inr ⟨x, rfl, h⟩
    · rintro (h | ⟨y, hy, hf⟩)
      · cases h
      · cases hy
        exact hf
  | error e' =>
    constructor
    · intro h
      rw [error_bind] at h
      cases h
      exact Or.inl rfl
    · rintro (h | ⟨y, hy, _⟩)
      · cases h
        rw [error_bind]
      · cases hy

/-- The only errors `mulDiv` raises are `DivisionByZero` and
`NumericalOverflow`. -/
theorem mulDiv_error {a b d : Nat} {e : Err} (h : mulDiv a b d = .error e) :
    e = .divisionByZero ∨ e = .numericalOverflow := by
  unfold mulDiv at h
  split at h
  · cases h
    exact Or.inl rfl
  · split at h
    · cases h
      exact Or.inr rfl
    · cases h

/-- `pricePipeline` never raises `SettlementCooldown`. -/
theorem pricePipeline_ne_cooldown (sV sOther lam sigma : Nat) :
    pricePipeline sV sOther lam sigma ≠ .error .settlementCooldown := by
  intro h
  unfold pricePipeline at h
  split at h
  · cases h
  rcases failIfBindError.mp h with ⟨_, h1⟩ | ⟨_, h⟩
  · cases h1
  rcases bindEqError.mp h with h1 | ⟨x, hx, h⟩
  · rcases mulDiv_error h1 with h2 | h2 <;> cases h2
  rcases bindEqError.mp h with h2 | ⟨y, hy, h⟩
  · rcases mulDiv_error h2 with h3 | h3 <;> cases h3
  cases h

/-- `sqrt_marginal_price_from_virtual` never raises `SettlementCooldown`. -/
theorem smpfv_ne_cooldown (sLongV sShortV : Nat) (side : TokenSide)
    (lam sigL sigS f bn bd : Nat) :
    sqrtMarginalPriceFromVirtual sLongV sShortV side lam sigL sigS f bn bd ≠
      .error .settlementCooldown := by
  intro h
  unfold sqrtMarginalPriceFromVirtual at h
  rcases requireBindError.mp h with ⟨_, h1⟩ | ⟨_, h⟩
  · cases h1
  cases side with
  | long => exact pricePipeline_ne_cooldown _ _ _ _ h
  | short => exact pricePipeline_ne_cooldown _ _ _ _ h

/-- `derive_lambda` (band-free part) never raises `SettlementCooldown`. -/
theorem deriveLambdaRaw_ne_cooldown (vaultAmount : Nat) (pool : Pool) :
    deriveLambdaRaw vaultAmount pool ≠ .error .settlementCooldown := by
  intro h
  unfold deriveLambdaRaw at h
  simp only [pure_eq_ok] at h
  rcases failIfBindError.mp h with ⟨_, h1⟩ | ⟨_, h⟩
  · cases h1
  rcases failIfBindError.mp h with ⟨_, h1⟩ | ⟨_, h⟩
  · cases h1
  rcases failIfBindError.mp h with ⟨_, h1⟩ | ⟨_, h⟩
  · cases h1
  rcases failIfBindError.mp h with ⟨_, h1⟩ | ⟨_, h⟩
  · cases h1
  rcases failIfBindError.mp h with ⟨_, h1⟩ | ⟨_, h⟩
  · cases h1
  rcases failIfBindError.mp h with ⟨_, h1⟩ | ⟨_, h⟩
  · cases h1
  cases h

/-- The only errors the band-free λ derivation raises are
`VirtualSupplyOverflow` and `NumericalOverflow`; in particular it never
raises `InvalidParameter` (it has no sanity gate). -/
theorem deriveLambdaRaw_error {v : Nat} {q : Pool} {e : Err}
    (h : deriveLambdaRaw v q = .error e) :
    e = .virtualSupplyOverflow ∨ e = .numericalOverflow := by
  unfold deriveLambdaRaw at h
  simp only [pure_eq_ok] at h
  rcases failIfBindError.mp h with ⟨_, h1⟩ | ⟨_, h⟩
  · exact Or.inl h1.symm
  rcases failIfBindError.mp h with ⟨_, h1⟩ | ⟨_, h⟩
  · exact Or.inl h1.symm
  rcases failIfBindError.mp h with ⟨_, h1⟩ | ⟨_, h⟩
  · exact Or.inr h1.symm
  rcases failIfBindError.mp h with ⟨_, h1⟩ | ⟨_, h⟩
  · exact Or.inr h1.symm
  rcases failIfBindError.mp h with ⟨_, h1⟩ | ⟨_, h⟩
  · exact Or.inr h1.symm
  rcases failIfBindError.mp h with ⟨_, h1⟩ | ⟨_, h⟩
  · exact Or.inr h1.symm
  cases h

/-- `mulDiv` never returns with a zero divisor, and its value is the floor
quotient. -/
theorem mulDiv_ok {a b d q : Nat} (h : mulDiv a b d = .ok q) :
    q = a * b / d ∧ 0 < d := by
  unfold mulDiv at h
  split at h
  · cases h
  · split at h
    · cases h
    · cases h
      exact ⟨rfl, by omega⟩

/-! Head-guarded instances of `bindEqOk`, keeping unification from matching
`_ >>= _` against non-bind terms while destructuring handler proofs. -/

theorem mulDivBindOk {β : Type} {a b d : Nat} {f : Nat → Except Err β} {p : β} :
    (mulDiv a b d >>= f) = .ok p ↔
      ∃ x, mulDiv a b d = .ok x ∧ f x = .ok p := bindEqOk

theorem gcdMulDivBindOk {β : Type} {a b d : Nat} {f : Nat → Except Err β} {p : β} :
    (gcdMulDiv a b d >>= f) = .ok p ↔
      ∃ x, gcdMulDiv a b d = .ok x ∧ f x = .ok p := bindEqOk

theorem div256BindOk {β : Type} {hi lo d : Nat} {f : Nat → Except Err β} {p : β} :
    (div256By128 hi lo d >>= f) = .ok p ↔
      ∃ x, div256By128 hi lo d = .ok x ∧ f x = .ok p := bindEqOk

theorem rawBindOk {β : Type} {v : Nat} {q : Pool} {f : Nat → Except Err β} {p : β} :
    (deriveLambdaRaw v q >>= f) = .ok p ↔
      ∃ x, deriveLambdaRaw v q = .ok x ∧ f x = .ok p := bindEqOk

theorem lambdaTradeBindOk {β : Type} {v : Nat} {q : Pool} {f : Nat → Except Err β}
    {p : β} :
    (deriveLambdaTrade v q >>= f) = .ok p ↔
      ∃ x, deriveLambdaTrade v q = .ok x ∧ f x = .ok p := bindEqOk

theorem smpfvBindOk {β : Type} {a b lam sl ss ff bn bd : Nat} {s : TokenSide}
    {f : Nat → Except Err β} {p : β} :
    (sqrtMarginalPriceFromVirtual a b s lam sl ss ff bn bd >>= f) = .ok p ↔
      ∃ x, sqrtMarginalPriceFromVirtual a b s lam sl ss ff bn bd = .ok x ∧
        f x = .ok p := bindEqOk

theorem smpBindOk {β : Type} {a b lam ff bn bd : Nat} {s : TokenSide}
    {f : Nat → Except Err β} {p : β} :
    (sqrtMarginalPrice a b s lam ff bn bd >>= f) = .ok p ↔
      ∃ x, sqrtMarginalPrice a b s lam ff bn bd = .ok x ∧ f x = .ok p := bindEqOk

theorem calcFeesBindOk {β : Type} {a tb sb : Nat}
    {f : Nat × Nat × Nat → Except Err β} {p : β} :
    (calcFees a tb sb >>= f) = .ok p ↔
      ∃ x, calcFees a tb sb = .ok x ∧ f x = .ok p := bindEqOk

theorem calcBuyBindOk {β : Type} {c u lam o ff bn bd sl ss : Nat} {il : Bool}
    {f : Nat × Nat → Except Err β} {p : β} :
    (calculateBuy c u lam o ff bn bd il sl ss >>= f) = .ok p ↔
      ∃ x, calculateBuy c u lam o ff bn bd il sl ss = .ok x ∧
        f x = .ok p := bindEqOk

theorem calcSellBindOk {β : Type} {c t lam o ff bn bd sl ss : Nat} {il : Bool}
    {f : Nat × Nat → Except Err β} {p : β} :
    (calculateSell c t lam o ff bn bd il sl ss >>= f) = .ok p ↔
      ∃ x, calculateSell c t lam o ff bn bd il sl ss = .ok x ∧
        f x = .ok p := bindEqOk

theorem reserveBindOk {β : Type} {a b lam : Nat} {f : Nat → Except Err β} {p : β} :
    (reserveFromLambdaAndVirtual a b lam >>= f) = .ok p ↔
      ∃ x, reserveFromLambdaAndVirtual a b lam = .ok x ∧ f x = .ok p := bindEqOk

theorem decayedBindOk {β : Type} {q : Pool} {t : Int}
    {f : Nat × Nat → Except Err β} {p : β} :
    (calculateDecayedReserves q t >>= f) = .ok p ↔
      ∃ x, calculateDecayedReserves q t = .ok x ∧ f x = .ok p := bindEqOk

theorem priceDisplayBindOk {β : Type} {a b s lam : Nat} {f : Nat → Except Err β}
    {p : β} :
    (priceDisplayQ96 a b s lam >>= f) = .ok p ↔
      ∃ x, priceDisplayQ96 a b s lam = .ok x ∧ f x = .ok p := bindEqOk

theorem displayTokensBindOk {β : Type} {u pd : Nat} {f : Nat → Except Err β}
    {p : β} :
    (toDisplayTokens u pd >>= f) = .ok p ↔
      ∃ x, toDisplayTokens u pd = .ok x ∧ f x = .ok p := bindEqOk

/-- Destructuring the cooldown gate in a successful settlement. -/
theorem cooldownBindOk {β : Type} {ts iv now : Int} {f : PUnit → Except Err β}
    {p : β} :
    (checkCooldown ts iv now >>= f) = .ok p ↔
      (ts > 0 → now - ts ≥ iv) ∧ f PUnit.unit = .ok p := by
  unfold checkCooldown
  split
  · rename_i hts
    split
    · rename_i hcd
      simp only [ok_bind]
      exact ⟨fun h => ⟨fun _ => hcd, h⟩, fun h => h.2⟩
    · rename_i hcd
      simp only [error_bind]
      constructor
      · intro h
        cases h
      · rintro ⟨hc, _⟩
        exact absurd (hc hts) hcd
  · rename_i hts
    simp only [ok_bind]
    exact ⟨fun h => ⟨fun h0 => absurd h0 hts, h⟩, fun h => h.2⟩

/-- The proportional recouple of settle_epoch.rs restores the reserve-sum
invariant exactly: `r = ⌊a·vb/(a+b)⌋ ≤ vb`, so the `as u64` casts do not
truncate when the vault balance itself fits `u64`. -/
theorem recouple_sum {a b vb r : Nat} (hvb : vb < U64)
    (h : mulDiv a vb (a + b) = .ok r) :
    r % U64 + (vb - r) % U64 = vb := by
  obtain ⟨hr, hd⟩ := mulDiv_ok h
  have hle : r ≤ vb := by
    subst hr
    calc a * vb / (a + b) ≤ (a + b) * vb / (a + b) :=
          Nat.div_le_div_right (Nat.mul_le_mul_right _ (by omega))
      _ = vb := Nat.mul_div_cancel_left _ (by omega)
  rw [Nat.mod_eq_of_lt (by omega), Nat.mod_eq_of_lt (by omega)]
  omega

/-! ## Claims -/

/-- C6: `mul_shift_right_96` drops the carry between the cross terms' low 32
bits and the low product's high bits: at `a = 2^96 - 1` (the largest input
its documentation allows) and `b = 2^64 + 2^32` it returns
`2^64 + 2^32 - 2`, while `⌊a·b / 2^96⌋ = 2^64 + 2^32 - 1`.  So the claim
that every returned value equals the exact floor is refuted by the code's
own arithmetic. -/
theorem c6_mul_shift_right_96_off_by_one :
    mulShiftRight96 (2 ^ 96 - 1) (2 ^ 64 + 2 ^ 32) = .ok (2 ^ 64 + 2 ^ 32 - 2) ∧
    (2 ^ 96 - 1) * (2 ^ 64 + 2 ^ 32) / 2 ^ 96 = 2 ^ 64 + 2 ^ 32 - 1 := by
  constructor
  · decide
  · decide

/-- C9: `round_to_nearest` is not round-to-nearest for odd divisors: at
`value = 4`, `divisor = 3` the remainder is `1`, strictly below half of the
divisor (`2·1 < 3`), so the nearest integer to `4/3` is the floor quotient
`1`; the code's `r == half && q % 2 == 1` branch fires anyway and returns
`2`. -/
theorem c9_round_to_nearest_odd_divisor :
    roundToNearest 4 3 = 2 ∧ 4 / 3 = 1 ∧ 2 * (4 % 3) < 3 := by
  constructor
  · decide
  constructor
  · decide
  · decide

/-- C4: `renormalize_scales` does not establish the claimed bands.  At input
gauges `(σ_L, σ_S) = (2^48, 2^96)` (each inside the band) and display
supplies `(0, 1)`, the one-shot norm adjustment shifts both gauges right by
16 bits, leaving `σ_L = 2^32 < 2^48`, and the recomputed virtual norm is
still `1 < 2^16`: the ceiling division saturates at 1 so the shift does not
raise it. -/
theorem c4_renormalize_scales_leaves_band :
    renormalizeScales (2 ^ 48) (2 ^ 96) 0 1 = (2 ^ 32, 2 ^ 80) ∧
    (2 ^ 32 : Nat) < SIGMA_MIN ∧
    (let post := renormalizeScales (2 ^ 48) (2 ^ 96) 0 1
     let vL := virtualSupply 0 post.1
     let vS := virtualSupply 1 post.2
     vL * vL + vS * vS < VIRTUAL_NORM_MIN * VIRTUAL_NORM_MIN) := by
  refine ⟨by decide, by decide, by decide⟩

/-- C7 counterexample: the parameter gate of `calculate_sell` is not reached
when the balance check fails first.  With the unsupported triple
`(f, β_n, β_d) = (2, 1, 2)` and `tokens_to_sell = 1 > current_s = 0`, the
`checked_sub` raises `InsufficientBalance`, not `InvalidParameter`. -/
theorem c7_sell_balance_check_first :
    calculateSell 0 1 Q96 5 2 1 2 true Q64 Q64 = .error .insufficientBalance ∧
    Err.insufficientBalance ≠ Err.invalidParameter := by
  refine ⟨by decide, by decide⟩

/-- C7 amended: for every parameter triple other than `(1, 1, 2)`,
`cost_function`, `sqrt_marginal_price`, `sqrt_marginal_price_from_virtual`
and `calculate_buy` reject with `InvalidParameter` on all inputs, and
`calculate_sell` rejects with `InvalidParameter` whenever
`tokens_to_sell ≤ current_s` (otherwise its balance check fires first). -/
theorem c7_parameter_gate (f bn bd : Nat) (h : ¬(f = 1 ∧ bn = 1 ∧ bd = 2))
    (sLong sShort lam sigL sigS currentS usdcIn tokens sOther : Nat)
    (side : TokenSide) (isLong : Bool) :
    costFunction sLong sShort lam f bn bd = .error .invalidParameter ∧
    sqrtMarginalPrice sLong sShort side lam f bn bd = .error .invalidParameter ∧
    sqrtMarginalPriceFromVirtual sLong sShort side lam sigL sigS f bn bd =
      .error .invalidParameter ∧
    calculateBuy currentS usdcIn lam sOther f bn bd isLong sigL sigS =
      .error .invalidParameter ∧
    (tokens ≤ currentS →
      calculateSell currentS tokens lam sOther f bn bd isLong sigL sigS =
        .error .invalidParameter) := by
  refine ⟨?_, ?_, ?_, ?_, ?_⟩
  · simp [costFunction, require, h]
  · simp [sqrtMarginalPrice, require, h]
  · simp [sqrtMarginalPriceFromVirtual, require, h]
  · simp [calculateBuy, require, h]
  · intro hts
    have hlt : ¬(currentS < tokens) := by omega
    simp [calculateSell, failIf, hlt, costFunction, require, h]

/-- C7 witness: the amended gate at the concrete triple `(2, 1, 2)` with
`tokens = 1 ≤ current_s = 5`. -/
theorem c7_parameter_gate_witness :
    costFunction 10 10 Q96 2 1 2 = .error .invalidParameter ∧
    calculateSell 5 1 Q96 5 2 1 2 true Q64 Q64 = .error .invalidParameter := by
  have h := c7_parameter_gate 2 1 2 (by decide) 10 10 Q96 Q64 Q64 5 0 1 5
    TokenSide.long true
  exact ⟨h.1, h.2.2.2.2 (by decide)⟩

/-- C8 counterexample: `deploy_market` enforces no `10·p0` floor on the
per-side allocations.  With factory parameters `p0 = 100000` µUSD and
`min_initial_deposit = 100000000`, the deployment
`(initial_deposit, long_allocation) = (10^9, 500000)` has
`long_allocation = 500000 < 10·p0 = 1000000` yet succeeds, persisting
`s_long = 224`, `s_short = 9995` with reserve sum `999999999` (within the
1-bp residual bound). -/
theorem c8_deploy_below_ten_p0_succeeds :
    (500000 : Nat) < 10 * 100000 ∧
    deployMarket 1000000000 500000 100000 100000000 = .ok {
      sLong := 224
      sShort := 9995
      rLong := 502009
      rShort := 999497990
      sqrtLambdaX96 := 25056626185445004626132687912960
      sqrtPriceLongX96 := 3750695064637492049261658898432
      sqrtPriceShortX96 := 25054119645531221426948137811968
      initialQ := 2147483
      vaultBalance := 999999999 } := by
  refine ⟨by decide, by decide⟩

/-- C8 amended: the allocation bound `deploy_market` actually enforces is
positivity of both sides: any deployment with `long_allocation = 0`, or with
`long_allocation ≥ initial_deposit` (so that the short side underflows or is
zero), fails, and no state is persisted. -/
theorem c8_deploy_rejects_zero_side
    (d a p0 minDep : Nat) (h : a = 0 ∨ d ≤ a) :
    (deployMarket d a p0 minDep).isOk = false := by
  unfold deployMarket
  by_cases h1 : d ≥ minDep
  · by_cases h2 : d < a
    · simp [require, failIf, h1, h2, Except.isOk, Except.toBool]
    · have h3 : ¬(0 < a ∧ a < d) := by
        rcases h with h0 | h0 <;> omega
      simp [require, failIf, h1, h2, h3, Except.isOk, Except.toBool]
  · simp [require, h1, Except.isOk, Except.toBool]

/-- C8 witness: the amended rejection at the concrete input
`(initial_deposit, long_allocation) = (10^9, 0)`. -/
theorem c8_deploy_rejects_zero_side_witness :
    (deployMarket 1000000000 0 100000 100000000).isOk = false :=
  c8_deploy_rejects_zero_side 1000000000 0 100000 100000000 (Or.inl rfl)

/-- C10: when `last_settle_ts == 0` (no settlement ever recorded),
`settle_epoch` never fails with `SettlementCooldown`, whatever the clock and
`min_settle_interval` are: the cooldown comparison is guarded by
`last_settle_ts > 0`, and no later step of the handler raises that error. -/
theorem c10_no_cooldown_when_unset (pool : Pool) (vaultAmount : Nat)
    (now : Int) (bdScore : Nat) (h0 : pool.lastSettleTs = 0) :
    settleEpoch pool vaultAmount now bdScore ≠ .error .settlementCooldown := by
  intro h
  unfold settleEpoch at h
  unfold checkCooldown at h
  rw [h0] at h
  rw [if_neg (by norm_num : ¬((0 : Int) > 0))] at h
  simp only [throw_bind, pure_eq_ok, ok_bind] at h
  rcases requireBindError.mp h with ⟨_, hq⟩ | ⟨_, h⟩
  · cases hq
  rcases bindEqError.mp h with h1 | ⟨x1, hx1, h1⟩
  · rcases mulDiv_error h1 with h2 | h2 <;> cases h2
  rcases bindEqError.mp h1 with h2 | ⟨x2, hx2, h2⟩
  · rcases mulDiv_error h2 with h3 | h3 <;> cases h3
  rcases bindEqError.mp h2 with h3 | ⟨x3, hx3, h3⟩
  · rcases mulDiv_error h3 with h4 | h4 <;> cases h4
  rcases bindEqError.mp h3 with h4 | ⟨x4, hx4, h4⟩
  · rcases mulDiv_error h4 with h5 | h5 <;> cases h5
  split at h4
  · split at h4
    · rcases bindEqError.mp h4 with h5 | ⟨x5, hx5, h5⟩
      · rcases mulDiv_error h5 with h6 | h6 <;> cases h6
      rcases bindEqError.mp h5 with h6 | ⟨x6, hx6, h6⟩
      · exact deriveLambdaRaw_ne_cooldown _ _ h6
      rcases bindEqError.mp h6 with h7 | ⟨x7, hx7, h7⟩
      · exact smpfv_ne_cooldown _ _ _ _ _ _ _ _ _ h7
      rcases bindEqError.mp h7 with h8 | ⟨x8, hx8, h8⟩
      · exact smpfv_ne_cooldown _ _ _ _ _ _ _ _ _ h8
      rcases failIfBindError.mp h8 with ⟨_, he⟩ | ⟨_, h9⟩
      · cases he
      · cases h9
    · rcases bindEqError.mp h4 with h6 | ⟨x6, hx6, h6⟩
      · exact deriveLambdaRaw_ne_cooldown _ _ h6
      rcases bindEqError.mp h6 with h7 | ⟨x7, hx7, h7⟩
      · exact smpfv_ne_cooldown _ _ _ _ _ _ _ _ _ h7
      rcases bindEqError.mp h7 with h8 | ⟨x8, hx8, h8⟩
      · exact smpfv_ne_cooldown _ _ _ _ _ _ _ _ _ h8
      rcases failIfBindError.mp h8 with ⟨_, he⟩ | ⟨_, h9⟩
      · cases he
      · cases h9
  · rcases bindEqError.mp h4 with h6 | ⟨x6, hx6, h6⟩
    · exact deriveLambdaRaw_ne_cooldown _ _ h6
    rcases bindEqError.mp h6 with h7 | ⟨x7, hx7, h7⟩
    · exact smpfv_ne_cooldown _ _ _ _ _ _ _ _ _ h7
    rcases bindEqError.mp h7 with h8 | ⟨x8, hx8, h8⟩
    · exact smpfv_ne_cooldown _ _ _ _ _ _ _ _ _ h8
    rcases failIfBindError.mp h8 with ⟨_, he⟩ | ⟨_, h9⟩
    · cases he
    · cases h9

/-- C10 witness: the cooldown-free first settlement at a concrete pool with
`last_settle_ts = 0`, a clock of `1000` and `min_settle_interval = 7200`. -/
theorem c10_no_cooldown_when_unset_witness :
    settleEpoch {
      sLong := 1000, sShort := 1000, rLong := 0, rShort := 5,
      sqrtPriceLongX96 := 0, sqrtPriceShortX96 := 0,
      sScaleLongQ64 := Q64, sScaleShortQ64 := Q64,
      lambdaLongQ96 := 0, lambdaShortQ96 := 0,
      sqrtLambdaLongX96 := 0, sqrtLambdaShortX96 := 0,
      lastSettleTs := 0, minSettleInterval := 7200, currentEpoch := 0,
      expirationTimestamp := 0, lastDecayUpdate := 0,
      vaultBalance := 5, initialQ := 0, f := 1, betaNum := 1, betaDen := 2,
      marketDeployed := true } 5 1000 1000000 ≠
      .error .settlementCooldown :=
  c10_no_cooldown_when_unset _ 5 1000 1000000 rfl

set_option maxHeartbeats 2000000 in
/-- C2: whatever state and score `settle_epoch` succeeds on, it leaves
`vault_balance`, `s_long` and `s_short` exactly as they were, advances
`current_epoch` by exactly 1, stamps `last_settle_ts` with the clock, and
touches nothing else beyond the gauges, the reserves and the stored
sqrt-prices: the λ telemetry fields, the decay fields, `min_settle_interval`
and `initial_q` are all preserved. -/
theorem c2_settle_frame (pool : Pool) (vaultAmount : Nat) (now : Int)
    (bdScore : Nat) (p : Pool)
    (h : settleEpoch pool vaultAmount now bdScore = .ok p) :
    p.vaultBalance = pool.vaultBalance ∧
    p.sLong = pool.sLong ∧
    p.sShort = pool.sShort ∧
    p.currentEpoch = pool.currentEpoch + 1 ∧
    p.lastSettleTs = now ∧
    p.lambdaLongQ96 = pool.lambdaLongQ96 ∧
    p.lambdaShortQ96 = pool.lambdaShortQ96 ∧
    p.sqrtLambdaLongX96 = pool.sqrtLambdaLongX96 ∧
    p.sqrtLambdaShortX96 = pool.sqrtLambdaShortX96 ∧
    p.minSettleInterval = pool.minSettleInterval ∧
    p.expirationTimestamp = pool.expirationTimestamp ∧
    p.lastDecayUpdate = pool.lastDecayUpdate ∧
    p.initialQ = pool.initialQ ∧
    p.f = pool.f ∧ p.betaNum = pool.betaNum ∧ p.betaDen = pool.betaDen ∧
    p.marketDeployed = pool.marketDeployed := by
  unfold settleEpoch at h
  simp only [throw_bind, pure_eq_ok, ok_bind] at h
  repeat'
    first
    | (split at h)
    | (rcases cooldownBindOk.mp h with ⟨_, h⟩)
    | (rcases requireBindOk.mp h with ⟨_, h⟩)
    | (rcases failIfBindOk.mp h with ⟨_, h⟩)
    | (rcases mulDivBindOk.mp h with ⟨_, _, h⟩)
    | (rcases rawBindOk.mp h with ⟨_, _, h⟩)
    | (rcases smpfvBindOk.mp h with ⟨_, _, h⟩)
  all_goals (cases h)
  all_goals exact ⟨rfl, rfl, rfl, rfl, rfl, rfl, rfl, rfl, rfl,
    rfl, rfl, rfl, rfl, rfl, rfl, rfl, rfl⟩

/-- The pre-state of the concrete settle run used as witness: a symmetric
pool with 1000 USDC of reserves. -/
def settleWitnessPre : Pool := {
  sLong := 5000, sShort := 5000, rLong := 500000000, rShort := 500000000,
  sqrtPriceLongX96 := 0, sqrtPriceShortX96 := 0,
  sScaleLongQ64 := Q64, sScaleShortQ64 := Q64,
  lambdaLongQ96 := 0, lambdaShortQ96 := 0,
  sqrtLambdaLongX96 := 0, sqrtLambdaShortX96 := 0,
  lastSettleTs := 0, minSettleInterval := 7200, currentEpoch := 0,
  expirationTimestamp := 0, lastDecayUpdate := 0,
  vaultBalance := 1000000000, initialQ := 0, f := 1, betaNum := 1,
  betaDen := 2, marketDeployed := true }

/-- The post-state of settling `settleWitnessPre` with `bd_score = 300000`
at time 10000. -/
def settleWitnessPost : Pool := {
  sLong := 5000, sShort := 5000, rLong := 300000000, rShort := 700000000,
  sqrtPriceLongX96 := 32567224131775355474053208997888,
  sqrtPriceShortX96 := 13957486450208203669696300449792,
  sScaleLongQ64 := 1383505805528216371,
  sScaleShortQ64 := 3228180212899171532,
  lambdaLongQ96 := 0, lambdaShortQ96 := 0,
  sqrtLambdaLongX96 := 0, sqrtLambdaShortX96 := 0,
  lastSettleTs := 10000, minSettleInterval := 7200, currentEpoch := 1,
  expirationTimestamp := 0, lastDecayUpdate := 0,
  vaultBalance := 1000000000, initialQ := 0, f := 1, betaNum := 1,
  betaDen := 2, marketDeployed := true }

/-- C2 witness: the frame equalities at a concrete successful settlement
(symmetric pool, `bd_score = 300000`). -/
theorem c2_settle_frame_witness :
    settleEpoch settleWitnessPre 1000000000 10000 300000 =
      .ok settleWitnessPost ∧
    settleWitnessPost.vaultBalance = settleWitnessPre.vaultBalance ∧
    settleWitnessPost.sLong = settleWitnessPre.sLong ∧
    settleWitnessPost.sShort = settleWitnessPre.sShort ∧
    settleWitnessPost.currentEpoch = settleWitnessPre.currentEpoch + 1 := by
  constructor
  · decide
  · have h := c2_settle_frame settleWitnessPre 1000000000 10000 300000
      settleWitnessPost (by decide)
    exact ⟨h.1, h.2.1, h.2.2.1, h.2.2.2.1⟩

/-- A pool whose λ derivation is far below the sanity band: virtual norm
1414 against a vault of only 5 µUSD. -/
def smallVaultPool : Pool := {
  sLong := 1000, sShort := 1000, rLong := 0, rShort := 5,
  sqrtPriceLongX96 := 0, sqrtPriceShortX96 := 0,
  sScaleLongQ64 := Q64, sScaleShortQ64 := Q64,
  lambdaLongQ96 := 0, lambdaShortQ96 := 0,
  sqrtLambdaLongX96 := 0, sqrtLambdaShortX96 := 0,
  lastSettleTs := 0, minSettleInterval := 7200, currentEpoch := 0,
  expirationTimestamp := 0, lastDecayUpdate := 0,
  vaultBalance := 5, initialQ := 0, f := 1, betaNum := 1, betaDen := 2,
  marketDeployed := true }

/-- C3 counterexample: `settle_epoch`'s λ derivation has no sanity band.  On
`smallVaultPool` with a vault balance of 5 µUSD it derives
`λ_Q96 / 2^96 = 0 < 10`, and the settlement succeeds instead of failing with
`InvalidParameter`. -/
theorem c3_settle_lambda_unchecked :
    deriveLambdaRaw 5 smallVaultPool = .ok 280156161648742353583960220 ∧
    (280156161648742353583960220 : Nat) / Q96 < 10 ∧
    (settleEpoch smallVaultPool 5 1000 1000000).isOk = true := by
  refine ⟨by decide, by decide, by decide⟩

/-- C3 amended: the λ derivation used by trade and add_liquidity
(`derive_lambda` in trade.rs) enforces the sanity band — given the band-free
derivation succeeds with λ, it returns λ when `10 ≤ λ_Q96/2^96 ≤ 10^11` and
fails with `InvalidParameter` otherwise — while the derivation used by
settle_epoch is the band-free computation, which never raises
`InvalidParameter` at all. -/
theorem c3_lambda_band (vaultAmount : Nat) (pool : Pool) (lam : Nat)
    (h : deriveLambdaRaw vaultAmount pool = .ok lam) :
    ((10 ≤ lam / Q96 ∧ lam / Q96 ≤ 100000000000) →
      deriveLambdaTrade vaultAmount pool = .ok lam) ∧
    (¬(10 ≤ lam / Q96 ∧ lam / Q96 ≤ 100000000000) →
      deriveLambdaTrade vaultAmount pool = .error .invalidParameter) ∧
    (∀ e, deriveLambdaRaw vaultAmount pool = .error e →
      e ≠ .invalidParameter) := by
  refine ⟨?_, ?_, ?_⟩
  · intro hb
    simp [deriveLambdaTrade, require, h, hb]
  · intro hb
    simp [deriveLambdaTrade, require, h, hb]
  · intro e he
    rcases deriveLambdaRaw_error he with h1 | h1 <;> simp [h1]

/-- C3 witness: the in-band branch of the gate at a concrete pool whose
derived λ is 141422 µUSD per unit norm. -/
theorem c3_lambda_band_witness :
    deriveLambdaTrade 1000000000 settleWitnessPre =
      .ok 11204661648177674670279161410832979 := by
  have h := c3_lambda_band 1000000000 settleWitnessPre
    11204661648177674670279161410832979 (by decide)
  exact h.1 (by decide)

/-- A pool with stale decay state: 10/10 µUSD of reserves against a 20 µUSD
vault, expired at t = 0, last decay update at t = 0. -/
def decayCexPool : Pool := {
  sLong := 10, sShort := 10, rLong := 10, rShort := 10,
  sqrtPriceLongX96 := 0, sqrtPriceShortX96 := 0,
  sScaleLongQ64 := Q64, sScaleShortQ64 := Q64,
  lambdaLongQ96 := 0, lambdaShortQ96 := 0,
  sqrtLambdaLongX96 := Q96, sqrtLambdaShortX96 := Q96,
  lastSettleTs := 0, minSettleInterval := 0, currentEpoch := 0,
  expirationTimestamp := 0, lastDecayUpdate := 0,
  vaultBalance := 20, initialQ := 0, f := 1, betaNum := 1, betaDen := 2,
  marketDeployed := true }

/-- The state `apply_decay_if_needed` persists for `decayCexPool` one day
after expiration: the long reserve decays 10 → 9 while the vault keeps 20. -/
def decayCexPost : Pool := {
  sLong := 10, sShort := 10, rLong := 9, rShort := 10,
  sqrtPriceLongX96 := 66960018643252861326250213376,
  sqrtPriceShortX96 := 66960018643252861326250213376,
  sScaleLongQ64 := Q64, sScaleShortQ64 := Q64,
  lambdaLongQ96 := 0, lambdaShortQ96 := 0,
  sqrtLambdaLongX96 := Q96, sqrtLambdaShortX96 := Q96,
  lastSettleTs := 0, minSettleInterval := 0, currentEpoch := 0,
  expirationTimestamp := 0, lastDecayUpdate := 86400,
  vaultBalance := 20, initialQ := 0, f := 1, betaNum := 1, betaDen := 2,
  marketDeployed := true }

/-- The state `settle_epoch` persists for `smallVaultPool` (reserves 0/5,
vault 5): both reserves are zeroed while the vault keeps 5. -/
def settleCexPost : Pool := {
  sLong := 1000, sShort := 1000, rLong := 0, rShort := 0,
  sqrtPriceLongX96 := 560222107364414994776064,
  sqrtPriceShortX96 := 5602249086303203744957857792,
  sScaleLongQ64 := 1844674407370955161600,
  sScaleShortQ64 := 184467440737095516,
  lambdaLongQ96 := 0, lambdaShortQ96 := 0,
  sqrtLambdaLongX96 := 0, sqrtLambdaShortX96 := 0,
  lastSettleTs := 1000, minSettleInterval := 7200, currentEpoch := 1,
  expirationTimestamp := 0, lastDecayUpdate := 0,
  vaultBalance := 5, initialQ := 0, f := 1, betaNum := 1, betaDen := 2,
  marketDeployed := true }

/-- C1 counterexample: two committed transitions break
`r_long + r_short = vault_balance`.  Decay scales the reserves without
touching the vault (`10 + 10 = 20` becomes `9 + 10 = 19 ≠ 20`), and a
settlement whose factor-scaled reserves both round to zero skips the
recouple (`totalAfter > 0` fails) and persists `0 + 0 = 0 ≠ 5`. -/
theorem c1_reserve_sum_violated :
    applyDecayIfNeeded decayCexPool 86400 = .ok (decayCexPost, true) ∧
    decayCexPost.rLong + decayCexPost.rShort ≠ decayCexPost.vaultBalance ∧
    settleEpoch smallVaultPool 5 1000 1000000 = .ok settleCexPost ∧
    settleCexPost.rLong + settleCexPost.rShort ≠ settleCexPost.vaultBalance := by
  refine ⟨by decide, by decide, by decide, by decide⟩

set_option maxHeartbeats 16000000 in
/-- C1 amended: a committed buy, sell or add_liquidity always restores
`r_long + r_short = vault_balance` (the recouple `r_long := min(r_calc, vb)`,
`r_short := vb − r_long` makes it hold unconditionally), and a committed
settlement (vault below `2^64`) restores it except when both scaled reserves
round to zero, in which case the pool is left with `r_long = r_short = 0`
against an untouched vault; decay application preserves no such relation. -/
theorem c1_reserve_sum (pool : Pool) (v amount skim minOut tfb csb usdc bd : Nat)
    (side : TokenSide) (now : Int) (p q r0 s0 : Pool)
    (hvb : pool.vaultBalance < U64) :
    (tradeBuy pool v side amount skim minOut tfb csb = .ok p →
      p.rLong + p.rShort = p.vaultBalance) ∧
    (tradeSell pool v side amount minOut tfb csb = .ok q →
      q.rLong + q.rShort = q.vaultBalance) ∧
    (addLiquidity pool v usdc = .ok r0 →
      r0.rLong + r0.rShort = r0.vaultBalance) ∧
    (settleEpoch pool v now bd = .ok s0 →
      s0.rLong + s0.rShort = s0.vaultBalance ∨
        (s0.rLong = 0 ∧ s0.rShort = 0)) := by
  refine ⟨?_, ?_, ?_, ?_⟩
  · intro h
    unfold tradeBuy at h
    simp only [throw_bind, pure_eq_ok, ok_bind] at h
    rcases requireBindOk.mp h with ⟨_, h⟩
    rcases requireBindOk.mp h with ⟨_, h⟩
    rcases requireBindOk.mp h with ⟨_, h⟩
    rcases requireBindOk.mp h with ⟨_, h⟩
    rcases calcFeesBindOk.mp h with ⟨_, _, h⟩
    rcases failIfBindOk.mp h with ⟨_, h⟩
    rcases lambdaTradeBindOk.mp h with ⟨_, _, h⟩
    rcases calcBuyBindOk.mp h with ⟨_, _, h⟩
    rcases requireBindOk.mp h with ⟨_, h⟩
    rcases failIfBindOk.mp h with ⟨_, h⟩
    rcases requireBindOk.mp h with ⟨_, h⟩
    rcases failIfBindOk.mp h with ⟨_, h⟩
    rcases requireBindOk.mp h with ⟨_, h⟩
    rcases failIfBindOk.mp h with ⟨_, h⟩
    rcases smpfvBindOk.mp h with ⟨_, _, h⟩
    rcases reserveBindOk.mp h with ⟨_, _, h⟩
    cases h
    dsimp only
    omega
  · intro h
    unfold tradeSell at h
    simp only [throw_bind, pure_eq_ok, ok_bind] at h
    rcases requireBindOk.mp h with ⟨_, h⟩
    rcases requireBindOk.mp h with ⟨_, h⟩
    rcases requireBindOk.mp h with ⟨_, h⟩
    rcases requireBindOk.mp h with ⟨_, h⟩
    rcases lambdaTradeBindOk.mp h with ⟨_, _, h⟩
    rcases requireBindOk.mp h with ⟨_, h⟩
    rcases calcSellBindOk.mp h with ⟨_, _, h⟩
    rcases calcFeesBindOk.mp h with ⟨_, _, h⟩
    rcases failIfBindOk.mp h with ⟨_, h⟩
    rcases requireBindOk.mp h with ⟨_, h⟩
    rcases failIfBindOk.mp h with ⟨_, h⟩
    rcases failIfBindOk.mp h with ⟨_, h⟩
    rcases failIfBindOk.mp h with ⟨_, h⟩
    rcases smpfvBindOk.mp h with ⟨_, _, h⟩
    rcases requireBindOk.mp h with ⟨_, h⟩
    rcases reserveBindOk.mp h with ⟨_, _, h⟩
    cases h
    dsimp only
    omega
  · intro h
    unfold addLiquidity at h
    simp only [throw_bind, pure_eq_ok, ok_bind] at h
    rcases requireBindOk.mp h with ⟨_, h⟩
    rcases requireBindOk.mp h with ⟨_, h⟩
    rcases requireBindOk.mp h with ⟨_, h⟩
    rcases failIfBindOk.mp h with ⟨_, h⟩
    rcases lambdaTradeBindOk.mp h with ⟨_, _, h⟩
    split at h <;>
      [rcases priceDisplayBindOk.mp h with ⟨_, _, h⟩;
       rcases mulDivBindOk.mp h with ⟨_, _, h⟩] <;>
    (split at h <;>
      [rcases priceDisplayBindOk.mp h with ⟨_, _, h⟩;
       rcases mulDivBindOk.mp h with ⟨_, _, h⟩]) <;>
    (rcases displayTokensBindOk.mp h with ⟨_, _, h⟩;
     rcases displayTokensBindOk.mp h with ⟨_, _, h⟩;
     rcases failIfBindOk.mp h with ⟨_, h⟩;
     rcases failIfBindOk.mp h with ⟨_, h⟩;
     rcases failIfBindOk.mp h with ⟨_, h⟩;
     rcases failIfBindOk.mp h with ⟨_, h⟩;
     rcases failIfBindOk.mp h with ⟨_, h⟩;
     rcases lambdaTradeBindOk.mp h with ⟨_, _, h⟩;
     rcases smpfvBindOk.mp h with ⟨_, _, h⟩;
     rcases smpfvBindOk.mp h with ⟨_, _, h⟩;
     rcases reserveBindOk.mp h with ⟨_, _, h⟩;
     cases h;
     dsimp only;
     omega)
  · intro h
    unfold settleEpoch at h
    simp only [throw_bind, pure_eq_ok, ok_bind] at h
    repeat'
      first
      | (split at h)
      | (rcases cooldownBindOk.mp h with ⟨_, h⟩)
      | (rcases requireBindOk.mp h with ⟨_, h⟩)
      | (rcases failIfBindOk.mp h with ⟨_, h⟩)
      | (rcases mulDivBindOk.mp h with ⟨xmd, hmd, h⟩)
      | (rcases rawBindOk.mp h with ⟨_, _, h⟩)
      | (rcases smpfvBindOk.mp h with ⟨_, _, h⟩)
    all_goals (cases h)
    all_goals dsimp only
    all_goals first
      | exact Or.inl (recouple_sum hvb hmd)
      | (left; omega)
      | (right; omega)

/-- The state `trade::handler` persists when buying 1 USDC of longs into
`settleWitnessPre` (fee-free): supply 5000 → 5010, vault 10^9 → 10^9 + 10^6,
reserves recoupled to the new vault. -/
def buyWitnessPost : Pool := {
  sLong := 5010, sShort := 5000, rLong := 501995269, rShort := 499004731,
  sqrtPriceLongX96 := 25079174769204296763984792518656,
  sqrtPriceShortX96 := 25054289427851640125517608255488,
  sScaleLongQ64 := 1152921504606846976,
  sScaleShortQ64 := 1152921504606846976,
  lambdaLongQ96 := 700985448410145239233296748953357,
  lambdaShortQ96 := 700985448410145239233296748953357,
  sqrtLambdaLongX96 := 0, sqrtLambdaShortX96 := 0,
  lastSettleTs := 0, minSettleInterval := 7200, currentEpoch := 0,
  expirationTimestamp := 0, lastDecayUpdate := 0,
  vaultBalance := 1001000000, initialQ := 0, f := 1, betaNum := 1,
  betaDen := 2, marketDeployed := true }

/-- C1 witness: the amended reserve-sum identity at a concrete committed buy
(1 USDC of longs into the symmetric 1000-USDC pool). -/
theorem c1_reserve_sum_witness :
    settleWitnessPre.vaultBalance < U64 ∧
    tradeBuy settleWitnessPre 1000000000 .long 1000000 0 0 0 0 =
      .ok buyWitnessPost ∧
    buyWitnessPost.rLong + buyWitnessPost.rShort =
      buyWitnessPost.vaultBalance := by
  refine ⟨by decide, by decide, ?_⟩
  exact (c1_reserve_sum settleWitnessPre 1000000000 1000000 0 0 0 0 0 0
    TokenSide.long 0 buyWitnessPost buyWitnessPost buyWitnessPost
    buyWitnessPost (by decide)).1 (by decide)


/-! ## C5: price monotonicity under trades -/

theorem sqrt_succ_le (f o : Nat) :
    Nat.sqrt ((f + 1) * (f + 1) + o * o) ≤ Nat.sqrt (f * f + o * o) + 1 := by
  have hS := Nat.sqrt_le (f * f + o * o)
  have hS2 : f * f + o * o <
      (Nat.sqrt (f * f + o * o) + 1) * (Nat.sqrt (f * f + o * o) + 1) :=
    Nat.lt_succ_sqrt (f * f + o * o)
  have hf : f ≤ Nat.sqrt (f * f + o * o) := by
    have h1 : Nat.sqrt (f * f) ≤ Nat.sqrt (f * f + o * o) :=
      Nat.sqrt_le_sqrt (Nat.le_add_right _ _)
    rwa [Nat.sqrt_eq] at h1
  have hlt : (f + 1) * (f + 1) + o * o <
      (Nat.sqrt (f * f + o * o) + 2) * (Nat.sqrt (f * f + o * o) + 2) := by
    nlinarith
  have h2 := Nat.sqrt_lt.mpr hlt
  omega

theorem sqrt_cross_mono {c f : Nat} (o : Nat) (h : c ≤ f) :
    c * Nat.sqrt (f * f + o * o) ≤ f * Nat.sqrt (c * c + o * o) := by
  induction f, h using Nat.le_induction with
  | base => exact Nat.le_refl _
  | succ f hcf ih =>
    have hstep := sqrt_succ_le f o
    have hcS : c ≤ Nat.sqrt (c * c + o * o) := by
      have h1 : Nat.sqrt (c * c) ≤ Nat.sqrt (c * c + o * o) :=
        Nat.sqrt_le_sqrt (Nat.le_add_right _ _)
      rwa [Nat.sqrt_eq] at h1
    calc c * Nat.sqrt ((f + 1) * (f + 1) + o * o)
        ≤ c * (Nat.sqrt (f * f + o * o) + 1) := Nat.mul_le_mul_left c hstep
      _ = c * Nat.sqrt (f * f + o * o) + c := by ring
      _ ≤ f * Nat.sqrt (c * c + o * o) + Nat.sqrt (c * c + o * o) :=
          Nat.add_le_add ih hcS
      _ = (f + 1) * Nat.sqrt (c * c + o * o) := by ring

theorem div_cross_mono {a b x y : Nat} (hx : 0 < x) (hy : 0 < y)
    (h : a * y ≤ b * x) : a / x ≤ b / y := by
  rw [Nat.le_div_iff_mul_le hy]
  have h1 : a / x * y * x ≤ a * y := by
    have h2 : a / x * x ≤ a := Nat.div_mul_le_self a x
    calc a / x * y * x = a / x * x * y := by ring
      _ ≤ a * y := Nat.mul_le_mul_right y h2
  exact Nat.le_of_mul_le_mul_right (le_trans h1 h) hx

theorem pricePipeline_ok {sV sOther lam sig P : Nat}
    (h : pricePipeline sV sOther lam sig = .ok P) :
    (sV = 0 ∧ P = 0) ∨
    (sV ≠ 0 ∧ 0 < sig ∧
      P = isqrt (lam * sV / max (isqrt (sV * sV + sOther * sOther)) 1
            * Q64 / sig) * 2 ^ 48) := by
  unfold pricePipeline at h
  split at h
  · cases h
    exact Or.inl ⟨by assumption, rfl⟩
  · rcases failIfBindOk.mp h with ⟨_, h⟩
    rcases mulDivBindOk.mp h with ⟨pv, hpv, h⟩
    rcases mulDivBindOk.mp h with ⟨pd, hpd, h⟩
    cases h
    obtain ⟨hpv1, _⟩ := mulDiv_ok hpv
    obtain ⟨hpd1, hsig⟩ := mulDiv_ok hpd
    subst hpv1
    subst hpd1
    exact Or.inr ⟨by assumption, hsig, rfl⟩

theorem norm_pos_eq {s o : Nat} (hs : s ≠ 0) :
    max (isqrt (s * s + o * o)) 1 = Nat.sqrt (s * s + o * o) ∧
    0 < Nat.sqrt (s * s + o * o) := by
  rw [isqrt_eq_sqrt]
  have h1 : Nat.sqrt (s * s) ≤ Nat.sqrt (s * s + o * o) :=
    Nat.sqrt_le_sqrt (Nat.le_add_right _ _)
  rw [Nat.sqrt_eq] at h1
  constructor
  · omega
  · omega

theorem pricePipeline_mono_self {s s' o lam sig P P' : Nat} (hss : s ≤ s')
    (hP : pricePipeline s o lam sig = .ok P)
    (hP' : pricePipeline s' o lam sig = .ok P') :
    P ≤ P' := by
  rcases pricePipeline_ok hP with ⟨h0, hP0⟩ | ⟨hne, hsig, hPe⟩
  · subst hP0
    exact Nat.zero_le _
  · rcases pricePipeline_ok hP' with ⟨h0', _⟩ | ⟨hne', hsig', hPe'⟩
    · omega
    · subst hPe
      subst hPe'
      obtain ⟨hN, hN0⟩ := norm_pos_eq (o := o) hne
      obtain ⟨hN', hN0'⟩ := norm_pos_eq (o := o) hne'
      rw [hN, hN']
      apply Nat.mul_le_mul_right
      rw [isqrt_eq_sqrt, isqrt_eq_sqrt]
      apply Nat.sqrt_le_sqrt
      apply Nat.div_le_div_right
      apply Nat.mul_le_mul_right
      apply div_cross_mono hN0 hN0'
      have hc := sqrt_cross_mono o hss
      calc lam * s * Nat.sqrt (s' * s' + o * o)
          = lam * (s * Nat.sqrt (s' * s' + o * o)) := by ring
        _ ≤ lam * (s' * Nat.sqrt (s * s + o * o)) := Nat.mul_le_mul_left lam hc
        _ = lam * s' * Nat.sqrt (s * s + o * o) := by ring

theorem pricePipeline_antimono_other {s o o' lam sig P P' : Nat} (hoo : o ≤ o')
    (hP : pricePipeline s o lam sig = .ok P)
    (hP' : pricePipeline s o' lam sig = .ok P') :
    P' ≤ P := by
  rcases pricePipeline_ok hP' with ⟨h0, hP0⟩ | ⟨hne, hsig, hPe'⟩
  · subst hP0
    exact Nat.zero_le _
  · rcases pricePipeline_ok hP with ⟨h0', _⟩ | ⟨hne', hsig', hPe⟩
    · omega
    · subst hPe
      subst hPe'
      obtain ⟨hN, hN0⟩ := norm_pos_eq (o := o) hne
      obtain ⟨hN', hN0'⟩ := norm_pos_eq (o := o') hne
      rw [hN, hN']
      apply Nat.mul_le_mul_right
      rw [isqrt_eq_sqrt, isqrt_eq_sqrt]
      apply Nat.sqrt_le_sqrt
      apply Nat.div_le_div_right
      apply Nat.mul_le_mul_right
      apply div_cross_mono hN0' hN0
      have hc : Nat.sqrt (s * s + o * o) ≤ Nat.sqrt (s * s + o' * o') := by
        apply Nat.sqrt_le_sqrt
        have : o * o ≤ o' * o' := Nat.mul_le_mul hoo hoo
        omega
      calc lam * s * Nat.sqrt (s * s + o * o)
          ≤ lam * s * Nat.sqrt (s * s + o' * o') :=
            Nat.mul_le_mul_left (lam * s) hc
        _ = lam * s * Nat.sqrt (s * s + o' * o') := rfl

theorem smpfv_ok_long {a b lam sl ss ff bn bd P : Nat}
    (h : sqrtMarginalPriceFromVirtual a b .long lam sl ss ff bn bd = .ok P) :
    pricePipeline a b lam sl = .ok P := by
  unfold sqrtMarginalPriceFromVirtual at h
  rcases requireBindOk.mp h with ⟨_, h⟩
  exact h

theorem smpfv_ok_short {a b lam sl ss ff bn bd P : Nat}
    (h : sqrtMarginalPriceFromVirtual a b .short lam sl ss ff bn bd = .ok P) :
    pricePipeline b a lam ss = .ok P := by
  unfold sqrtMarginalPriceFromVirtual at h
  rcases requireBindOk.mp h with ⟨_, h⟩
  exact h

theorem costFnBindOk {β : Type} {a b lam ff bn bd : Nat}
    {f : Nat → Except Err β} {p : β} :
    (costFunction a b lam ff bn bd >>= f) = .ok p ↔
      ∃ x, costFunction a b lam ff bn bd = .ok x ∧ f x = .ok p := bindEqOk

set_option maxHeartbeats 4000000 in
theorem buyMonoLong (currentS usdcIn lam sOther sigL sigS ff bn bd : Nat)
    (dS pA pB pOB pOA : Nat)
    (hbuy : calculateBuy currentS usdcIn lam sOther ff bn bd true sigL sigS =
      .ok (dS, pA))
    (hb : sqrtMarginalPriceFromVirtual currentS sOther .long lam sigL sigS
      ff bn bd = .ok pB)
    (hoB : sqrtMarginalPriceFromVirtual currentS sOther .short lam sigL sigS
      ff bn bd = .ok pOB)
    (hoA : sqrtMarginalPriceFromVirtual (currentS + dS) sOther .short lam sigL
      sigS ff bn bd = .ok pOA) :
    pB ≤ pA ∧ pOA ≤ pOB := by
  unfold calculateBuy at hbuy
  simp only [pure_eq_ok, if_true] at hbuy
  rcases requireBindOk.mp hbuy with ⟨_, hbuy⟩
  rcases failIfBindOk.mp hbuy with ⟨_, hbuy⟩
  rcases gcdMulDivBindOk.mp hbuy with ⟨dn, hdn, hbuy⟩
  rcases failIfBindOk.mp hbuy with ⟨_, hbuy⟩
  rcases failIfBindOk.mp hbuy with ⟨hna, hbuy⟩
  rcases failIfBindOk.mp hbuy with ⟨_, hbuy⟩
  rcases failIfBindOk.mp hbuy with ⟨hns, hbuy⟩
  rcases failIfBindOk.mp hbuy with ⟨_, hbuy⟩
  rcases smpfvBindOk.mp hbuy with ⟨pa, hpa, hbuy⟩
  simp only [Except.ok.injEq, Prod.mk.injEq] at hbuy
  obtain ⟨hdS, hpA⟩ := hbuy
  subst hdS
  subst hpA
  set N := isqrt ((isqrt (currentS * currentS + sOther * sOther) + dn) *
    (isqrt (currentS * currentS + sOther * sOther) + dn) -
    sOther * sOther) with hNdef
  have hcN : currentS ≤ N := by omega
  have hNle : N ≤ isqrt (currentS * currentS + sOther * sOther) + dn := by
    rw [hNdef, isqrt_eq_sqrt]
    calc Nat.sqrt ((isqrt (currentS * currentS + sOther * sOther) + dn) *
          (isqrt (currentS * currentS + sOther * sOther) + dn) -
          sOther * sOther)
        ≤ Nat.sqrt ((isqrt (currentS * currentS + sOther * sOther) + dn) *
          (isqrt (currentS * currentS + sOther * sOther) + dn)) :=
          Nat.sqrt_le_sqrt (Nat.sub_le _ _)
      _ = isqrt (currentS * currentS + sOther * sOther) + dn := Nat.sqrt_eq _
  have hfin : min (currentS + (N - currentS)) (U64 - 1) =
      currentS + (N - currentS) := by omega
  rw [hfin] at hpa
  constructor
  · exact pricePipeline_mono_self (Nat.le_add_right _ _) (smpfv_ok_long hb)
      (smpfv_ok_long hpa)
  · exact pricePipeline_antimono_other (Nat.le_add_right _ _)
      (smpfv_ok_short hoB) (smpfv_ok_short hoA)

set_option maxHeartbeats 4000000 in
theorem buyMonoShort (currentS usdcIn lam sOther sigL sigS ff bn bd : Nat)
    (dS pA pB pOB pOA : Nat)
    (hbuy : calculateBuy currentS usdcIn lam sOther ff bn bd false sigL sigS =
      .ok (dS, pA))
    (hb : sqrtMarginalPriceFromVirtual sOther currentS .short lam sigL sigS
      ff bn bd = .ok pB)
    (hoB : sqrtMarginalPriceFromVirtual sOther currentS .long lam sigL sigS
      ff bn bd = .ok pOB)
    (hoA : sqrtMarginalPriceFromVirtual sOther (currentS + dS) .long lam sigL
      sigS ff bn bd = .ok pOA) :
    pB ≤ pA ∧ pOA ≤ pOB := by
  unfold calculateBuy at hbuy
  simp only [pure_eq_ok, if_false, Bool.false_eq_true] at hbuy
  rcases requireBindOk.mp hbuy with ⟨_, hbuy⟩
  rcases failIfBindOk.mp hbuy with ⟨_, hbuy⟩
  rcases gcdMulDivBindOk.mp hbuy with ⟨dn, hdn, hbuy⟩
  rcases failIfBindOk.mp hbuy with ⟨_, hbuy⟩
  rcases failIfBindOk.mp hbuy with ⟨hna, hbuy⟩
  rcases failIfBindOk.mp hbuy with ⟨_, hbuy⟩
  rcases failIfBindOk.mp hbuy with ⟨hns, hbuy⟩
  rcases failIfBindOk.mp hbuy with ⟨_, hbuy⟩
  rcases smpfvBindOk.mp hbuy with ⟨pa, hpa, hbuy⟩
  simp only [Except.ok.injEq, Prod.mk.injEq] at hbuy
  obtain ⟨hdS, hpA⟩ := hbuy
  subst hdS
  subst hpA
  set N := isqrt ((isqrt (currentS * currentS + sOther * sOther) + dn) *
    (isqrt (currentS * currentS + sOther * sOther) + dn) -
    sOther * sOther) with hNdef
  have hcN : currentS ≤ N := by omega
  have hNle : N ≤ isqrt (currentS * currentS + sOther * sOther) + dn := by
    rw [hNdef, isqrt_eq_sqrt]
    calc Nat.sqrt ((isqrt (currentS * currentS + sOther * sOther) + dn) *
          (isqrt (currentS * currentS + sOther * sOther) + dn) -
          sOther * sOther)
        ≤ Nat.sqrt ((isqrt (currentS * currentS + sOther * sOther) + dn) *
          (isqrt (currentS * currentS + sOther * sOther) + dn)) :=
          Nat.sqrt_le_sqrt (Nat.sub_le _ _)
      _ = isqrt (currentS * currentS + sOther * sOther) + dn := Nat.sqrt_eq _
  have hfin : min (currentS + (N - currentS)) (U64 - 1) =
      currentS + (N - currentS) := by omega
  rw [hfin] at hpa
  constructor
  · exact pricePipeline_mono_self (Nat.le_add_right _ _) (smpfv_ok_short hb)
      (smpfv_ok_short hpa)
  · exact pricePipeline_antimono_other (Nat.le_add_right _ _)
      (smpfv_ok_long hoB) (smpfv_ok_long hoA)

set_option maxHeartbeats 4000000 in
theorem sellMonoLong (currentS tokensToSell lam sOther sigL sigS ff bn bd : Nat)
    (uOut pSA pSB pSOB pSOA : Nat)
    (hsell : calculateSell currentS tokensToSell lam sOther ff bn bd true
      sigL sigS = .ok (uOut, pSA))
    (hsb : sqrtMarginalPriceFromVirtual currentS sOther .long lam sigL sigS
      ff bn bd = .ok pSB)
    (hsoB : sqrtMarginalPriceFromVirtual currentS sOther .short lam sigL sigS
      ff bn bd = .ok pSOB)
    (hsoA : sqrtMarginalPriceFromVirtual (currentS - tokensToSell) sOther
      .short lam sigL sigS ff bn bd = .ok pSOA) :
    pSA ≤ pSB ∧ pSOB ≤ pSOA := by
  unfold calculateSell at hsell
  simp only [pure_eq_ok, if_true] at hsell
  rcases failIfBindOk.mp hsell with ⟨_, hsell⟩
  rcases costFnBindOk.mp hsell with ⟨_, _, hsell⟩
  rcases costFnBindOk.mp hsell with ⟨_, _, hsell⟩
  rcases failIfBindOk.mp hsell with ⟨_, hsell⟩
  rcases smpfvBindOk.mp hsell with ⟨pa, hpa, hsell⟩
  simp only [Except.ok.injEq, Prod.mk.injEq] at hsell
  obtain ⟨hu, hp⟩ := hsell
  subst hp
  constructor
  · exact pricePipeline_mono_self (Nat.sub_le _ _) (smpfv_ok_long hpa)
      (smpfv_ok_long hsb)
  · exact pricePipeline_antimono_other (Nat.sub_le _ _)
      (smpfv_ok_short hsoA) (smpfv_ok_short hsoB)

set_option maxHeartbeats 4000000 in
theorem sellMonoShort (currentS tokensToSell lam sOther sigL sigS ff bn bd : Nat)
    (uOut pSA pSB pSOB pSOA : Nat)
    (hsell : calculateSell currentS tokensToSell lam sOther ff bn bd false
      sigL sigS = .ok (uOut, pSA))
    (hsb : sqrtMarginalPriceFromVirtual sOther currentS .short lam sigL sigS
      ff bn bd = .ok pSB)
    (hsoB : sqrtMarginalPriceFromVirtual sOther currentS .long lam sigL sigS
      ff bn bd = .ok pSOB)
    (hsoA : sqrtMarginalPriceFromVirtual sOther (currentS - tokensToSell)
      .long lam sigL sigS ff bn bd = .ok pSOA) :
    pSA ≤ pSB ∧ pSOB ≤ pSOA := by
  unfold calculateSell at hsell
  simp only [pure_eq_ok, if_false, Bool.false_eq_true] at hsell
  rcases failIfBindOk.mp hsell with ⟨_, hsell⟩
  rcases costFnBindOk.mp hsell with ⟨_, _, hsell⟩
  rcases costFnBindOk.mp hsell with ⟨_, _, hsell⟩
  rcases failIfBindOk.mp hsell with ⟨_, hsell⟩
  rcases smpfvBindOk.mp hsell with ⟨pa, hpa, hsell⟩
  simp only [Except.ok.injEq, Prod.mk.injEq] at hsell
  obtain ⟨hu, hp⟩ := hsell
  subst hp
  constructor
  · exact pricePipeline_mono_self (Nat.sub_le _ _) (smpfv_ok_short hpa)
      (smpfv_ok_short hsb)
  · exact pricePipeline_antimono_other (Nat.sub_le _ _)
      (smpfv_ok_long hsoA) (smpfv_ok_long hsoB)

/-- C5 counterexample: with the valid virtual state `(s_long, s_short) =
(3, 4)`, `λ = 11·2^96`, unit gauges and `usdc_in = 1 > 0`, `calculate_buy`
succeeds, yet `delta_norm = ⌊1/11⌋ = 0` leaves the supply unchanged: the
bought side's sqrt price after the buy equals its price before instead of
strictly exceeding it. -/
theorem c5_buy_not_strictly_monotone :
    calculateBuy 3 1 (11 * Q96) 4 1 1 2 true Q64 Q64 =
      .ok (0, 203540834855200614491116011520) ∧
    sqrtMarginalPriceFromVirtual 3 4 .long (11 * Q96) Q64 Q64 1 1 2 =
      .ok 203540834855200614491116011520 := by
  refine ⟨by decide, by decide⟩

/-- C5 amended: trades move prices weakly, not strictly.  Whenever
`calculate_buy` succeeds, the bought side's sqrt price after (returned by the
call, at supply `s + δ`) is at least its price before, and the opposite
side's recomputed sqrt price can only fall; whenever `calculate_sell`
succeeds the sold side's price can only fall and the opposite side's price
can only rise — on both sides of the book. -/
theorem c5_weak_price_monotonicity
    (currentS usdcIn tokensToSell lam sOther sigL sigS ff bn bd : Nat)
    (dS pA uOut pSA pB pOB pOA pSB pSOB pSOA : Nat) :
    (calculateBuy currentS usdcIn lam sOther ff bn bd true sigL sigS =
        .ok (dS, pA) →
      sqrtMarginalPriceFromVirtual currentS sOther .long lam sigL sigS
        ff bn bd = .ok pB →
      sqrtMarginalPriceFromVirtual currentS sOther .short lam sigL sigS
        ff bn bd = .ok pOB →
      sqrtMarginalPriceFromVirtual (currentS + dS) sOther .short lam sigL
        sigS ff bn bd = .ok pOA →
      pB ≤ pA ∧ pOA ≤ pOB) ∧
    (calculateBuy currentS usdcIn lam sOther ff bn bd false sigL sigS =
        .ok (dS, pA) →
      sqrtMarginalPriceFromVirtual sOther currentS .short lam sigL sigS
        ff bn bd = .ok pB →
      sqrtMarginalPriceFromVirtual sOther currentS .long lam sigL sigS
        ff bn bd = .ok pOB →
      sqrtMarginalPriceFromVirtual sOther (currentS + dS) .long lam sigL
        sigS ff bn bd = .ok pOA →
      pB ≤ pA ∧ pOA ≤ pOB) ∧
    (calculateSell currentS tokensToSell lam sOther ff bn bd true sigL
        sigS = .ok (uOut, pSA) →
      sqrtMarginalPriceFromVirtual currentS sOther .long lam sigL sigS
        ff bn bd = .ok pSB →
      sqrtMarginalPriceFromVirtual currentS sOther .short lam sigL sigS
        ff bn bd = .ok pSOB →
      sqrtMarginalPriceFromVirtual (currentS - tokensToSell) sOther .short
        lam sigL sigS ff bn bd = .ok pSOA →
      pSA ≤ pSB ∧ pSOB ≤ pSOA) ∧
    (calculateSell currentS tokensToSell lam sOther ff bn bd false sigL
        sigS = .ok (uOut, pSA) →
      sqrtMarginalPriceFromVirtual sOther currentS .short lam sigL sigS
        ff bn bd = .ok pSB →
      sqrtMarginalPriceFromVirtual sOther currentS .long lam sigL sigS
        ff bn bd = .ok pSOB →
      sqrtMarginalPriceFromVirtual sOther (currentS - tokensToSell) .long
        lam sigL sigS ff bn bd = .ok pSOA →
      pSA ≤ pSB ∧ pSOB ≤ pSOA) :=
  ⟨fun h1 h2 h3 h4 => buyMonoLong currentS usdcIn lam sOther sigL sigS
      ff bn bd dS pA pB pOB pOA h1 h2 h3 h4,
   fun h1 h2 h3 h4 => buyMonoShort currentS usdcIn lam sOther sigL sigS
      ff bn bd dS pA pB pOB pOA h1 h2 h3 h4,
   fun h1 h2 h3 h4 => sellMonoLong currentS tokensToSell lam sOther sigL
      sigS ff bn bd uOut pSA pSB pSOB pSOA h1 h2 h3 h4,
   fun h1 h2 h3 h4 => sellMonoShort currentS tokensToSell lam sOther sigL
      sigS ff bn bd uOut pSA pSB pSOB pSOA h1 h2 h3 h4⟩

/-- C5 witness: the weak monotonicity at a concrete successful buy and sell
on the symmetric 10^7-supply pool with `λ = 2^96` (1 µUSD per unit norm):
the 1-USDC buy moves the long sqrt price up and the short sqrt price down,
and selling the bought amount moves them back. -/
theorem c5_weak_price_monotonicity_witness :
    (66622679314561550009753403392 : Nat) ≤ 68655042790427361436615311360 ∧
    (64385198826791745896052686848 : Nat) ≤ 66622679314561550009753403392 ∧
    (66622679314561550009753403392 : Nat) ≤ 68655042790427361436615311360 ∧
    (64385198826791745896052686848 : Nat) ≤ 66622679314561550009753403392 := by
  have hbuy := (c5_weak_price_monotonicity 10000000 1000000 0 Q96 10000000
    Q64 Q64 1 1 2 1370323 68655042790427361436615311360 0 0
    66622679314561550009753403392 66622679314561550009753403392
    64385198826791745896052686848 0 0 0).1
    (by decide) (by decide) (by decide) (by decide)
  have hsell := (c5_weak_price_monotonicity 11370323 0 1370323 Q96 10000000
    Q64 Q64 1 1 2 0 0 999999 66622679314561550009753403392 0 0 0
    68655042790427361436615311360 64385198826791745896052686848
    66622679314561550009753403392).2.2.1
    (by decide) (by decide) (by decide) (by decide)
  exact ⟨hbuy.1, hbuy.2, hsell.1, hsell.2⟩

end Veritas
